import Mathlib

/-!
# kubernetes-auto-ingress: a shallow embedding of `main.go`

The controller keeps a map `svcIngPair` from service names to the ingress
recorded for them, fills it in a start-up pass (`createIngressServiceMap`)
and then changes it in the three informer callbacks (`AddFunc`,
`DeleteFunc`, `UpdateFunc`).

Modelling choices:

* Go strings are `String`; Go `map[string]V` is a function `String → Option V`
  (a lookup that misses is `none`); slices are `List`.
* `int32` and `int` values are `Int`; the conversion `int32(v)` wraps
  modulo `2^32` into the signed range, `int(x)` of an `int32` is the identity.
* A pointer that may be nil (`IngressRuleValue.HTTP`) is an `Option`;
  dereferencing nil is a runtime panic, which the scan reports explicitly.
* The cluster behind `clientset` is a record of response functions over an
  arbitrary world type `σ`; every call made through it is appended to a log
  so that "which calls were issued" can be stated.  Log lines written with
  `log.Info` / `log.Errorln` have no effect on the state and are left out.
-/

namespace AutoIngress

/-! ## Data model (the fields of the Kubernetes API types that `main.go` reads or writes) -/

/-- The Go `error` values returned by the cluster client. -/
abbrev Error := String

/-- Go `intstr.Type`: the zero value is `Int`. -/
inductive IntstrType where
  | Int
  | String
  deriving DecidableEq, Repr

/-- Go `intstr.IntOrString`. -/
structure IntOrString where
  Type_ : IntstrType := IntstrType.Int
  IntVal : Int := 0
  StrVal : String := ""
  deriving DecidableEq, Repr

/-- Go `extensions.IngressBackend`; the default value is the Go zero value `IngressBackend{}`. -/
structure IngressBackend where
  ServiceName : String := ""
  ServicePort : IntOrString := {}
  deriving DecidableEq, Repr

/-- Go `extensions.HTTPIngressPath`. -/
structure HTTPIngressPath where
  Path : String
  Backend : IngressBackend
  deriving DecidableEq, Repr

/-- Go `extensions.HTTPIngressRuleValue`. -/
structure HTTPIngressRuleValue where
  Paths : List HTTPIngressPath
  deriving DecidableEq, Repr

/-- Go `extensions.IngressRule`; `HTTP` is a pointer in Go and may be nil. -/
structure IngressRule where
  Host : String
  HTTP : Option HTTPIngressRuleValue
  deriving DecidableEq, Repr

/-- Go `extensions.IngressTLS`. -/
structure IngressTLS where
  Hosts : List String
  SecretName : String
  deriving DecidableEq, Repr

/-- Go `extensions.IngressSpec`. -/
structure IngressSpec where
  TLS : List IngressTLS
  Rules : List IngressRule
  deriving DecidableEq, Repr

/-- Go `extensions.Ingress` (object metadata flattened to name and namespace). -/
structure Ingress where
  Name : String
  Namespace : String
  Spec : IngressSpec
  deriving DecidableEq, Repr

/-- Go `core.ServicePort`; `Port` is an `int32`. -/
structure ServicePort where
  Port : Int
  deriving DecidableEq, Repr

/-- Go `core.ServiceSpec`. -/
structure ServiceSpec where
  Ports : List ServicePort
  deriving DecidableEq, Repr

/-- Go `core.Service`; `Labels` is the Go map `svc.Labels`, written as an association list
that is only ever read with `List.lookup`. -/
structure Service where
  Name : String
  Namespace : String
  Labels : List (String × String)
  Spec : ServiceSpec
  deriving DecidableEq, Repr

/-- The process-wide configuration read from the environment at start-up
(`AUTO_INGRESS_SERVER_NAME`, `AUTO_INGRESS_SECRET`). -/
structure Config where
  wildcardRecord : String
  secret : String
  deriving DecidableEq, Repr

/-! ## Machine integers -/

/-- Go `int32(v)` for a Go `int` `v`: wrap into `[-2^31, 2^31)`. -/
def toInt32 (v : Int) : Int := (v + 2147483648) % 4294967296 - 2147483648

/-- Go `int(x)` for an `int32` `x`: sign extension, the value is kept. -/
def int32ToInt (x : Int) : Int := x

/-- The values an `int32` can hold. -/
def isInt32 (x : Int) : Prop := -2147483648 ≤ x ∧ x < 2147483648

instance (x : Int) : Decidable (isInt32 x) := by unfold isInt32; infer_instance

/-- Go `intstr.FromInt(val)`: `IntOrString{Type: Int, IntVal: int32(val)}`. -/
def FromInt (val : Int) : IntOrString :=
  { Type_ := IntstrType.Int, IntVal := toInt32 val }

/-! ## The inventory `svcIngPair : map[string]extensions.Ingress` -/

/-- The Go map from service name to recorded ingress. -/
abbrev Inventory := String → Option Ingress

/-- Go `make(map[string]extensions.Ingress)`. -/
def Inventory.empty : Inventory := fun _ => none

/-- Go `m[k] = v`. -/
def Inventory.insert (m : Inventory) (k : String) (v : Ingress) : Inventory :=
  fun k' => if k' = k then some v else m k'

/-- Go `delete(m, k)`. -/
def Inventory.delete (m : Inventory) (k : String) : Inventory :=
  fun k' => if k' = k then none else m k'

/-! ## The cluster client -/

/-- One request sent through `clientset`. -/
inductive Call where
  | listServices
  | listIngresses
  | create (ns : String) (ing : Ingress)
  | delete (ns : String) (name : String)
  deriving DecidableEq, Repr

/-- The responses of the cluster: each request reads the current world and yields a
result and the next world.  `IngressesCreate ns ing` is
`clientset.ExtensionsV1beta1().Ingresses(ns).Create(ing)` and `IngressesDelete ns name`
is `clientset.ExtensionsV1beta1().Ingresses(ns).Delete(name, nil)`. -/
structure Clientset (σ : Type) where
  ServicesList : σ → Except Error (List Service) × σ
  IngressesList : σ → Except Error (List Ingress) × σ
  IngressesCreate : String → Ingress → σ → Except Error Ingress × σ
  IngressesDelete : String → String → σ → Option Error × σ

/-- What the controller and the cluster look like between two steps: the map, the
cluster's world and the log of requests sent so far (oldest first). -/
structure State (σ : Type) where
  svcIngPair : Inventory
  world : σ
  calls : List Call

/-- Send a delete request; its returned error is dropped, as at lines 105, 117 and 123. -/
def sendDelete {σ : Type} (cs : Clientset σ) (st : State σ) (ns name : String) : State σ :=
  { st with world := (cs.IngressesDelete ns name st.world).2,
            calls := st.calls ++ [Call.delete ns name] }

/-! ## The routing object builder -/

/-- Go `createIngressBackend` (lines 223-240). -/
def createIngressBackend (service : Service) : IngressBackend :=
  let serviceName := service.Name
  match service.Spec.Ports with
  | p :: _ =>
    let servicePort32Tmp := p.Port
    let servicePort := int32ToInt servicePort32Tmp
    { ServiceName := serviceName, ServicePort := FromInt servicePort }
  | [] => {}

/-- Go `createIngress` (lines 243-280). -/
def createIngress (cfg : Config) (service : Service) (backend : IngressBackend) : Ingress :=
  let ingressname := service.Name
  let servername := ingressname ++ "." ++ cfg.wildcardRecord
  { Name := ingressname,
    Namespace := service.Namespace,
    Spec :=
      { TLS := [{ Hosts := [servername], SecretName := cfg.secret }],
        Rules := [{ Host := servername,
                    HTTP := some { Paths := [{ Path := "/", Backend := backend }] } }] } }

/-- Go `createIngressForService` (lines 212-220): build the object and send one create
request to the service's namespace. -/
def createIngressForService {σ : Type} (cfg : Config) (cs : Clientset σ) (st : State σ)
    (service : Service) : State σ × Except Error Ingress :=
  let backend := createIngressBackend service
  let ingress := createIngress cfg service backend
  let r := cs.IngressesCreate service.Namespace ingress st.world
  ({ st with world := r.2, calls := st.calls ++ [Call.create service.Namespace ingress] }, r.1)

/-! ## The informer callbacks (lines 82-143) -/

/-- Go `AddFunc` (lines 82-100). -/
def AddFunc {σ : Type} (cfg : Config) (cs : Clientset σ) (st : State σ) (svc : Service) :
    State σ :=
  let lb := svc.Labels
  match st.svcIngPair svc.Name with
  | some _ => st
  | none =>
    match lb.lookup "public" with
    | none => st
    | some val =>
      if val = "true" then
        match createIngressForService cfg cs st svc with
        | (st1, Except.error _) => st1
        | (st1, Except.ok newIng) =>
          { st1 with svcIngPair := st1.svcIngPair.insert svc.Name newIng }
      else st

/-- Go `DeleteFunc` (lines 101-110). -/
def DeleteFunc {σ : Type} (cs : Clientset σ) (st : State σ) (svc : Service) : State σ :=
  match st.svcIngPair svc.Name with
  | some ing =>
    let st1 := sendDelete cs st svc.Namespace ing.Name
    { st1 with svcIngPair := st1.svcIngPair.delete svc.Name }
  | none => st

/-- Go `UpdateFunc` (lines 111-143); the old object is received and never read. -/
def UpdateFunc {σ : Type} (cfg : Config) (cs : Clientset σ) (st : State σ)
    (_oldSvc newSvc : Service) : State σ :=
  let lb := newSvc.Labels
  match st.svcIngPair newSvc.Name with
  | some ing =>
    match lb.lookup "public" with
    | none =>
      let st1 := sendDelete cs st newSvc.Namespace ing.Name
      { st1 with svcIngPair := st1.svcIngPair.delete newSvc.Name }
    | some val =>
      if val = "false" then
        let st1 := sendDelete cs st newSvc.Namespace ing.Name
        { st1 with svcIngPair := st1.svcIngPair.delete newSvc.Name }
      else st
  | none =>
    match lb.lookup "public" with
    | none => st
    | some val =>
      if val = "true" then
        match createIngressForService cfg cs st newSvc with
        | (st1, Except.error _) => st1
        | (st1, Except.ok newIng) =>
          { st1 with svcIngPair := st1.svcIngPair.insert newSvc.Name newIng }
      else st

/-! ## The start-up pass `createIngressServiceMap` (lines 154-209) -/

/-- The innermost loop (lines 174-179): record `ing` under every backend service name of
`paths` that has no entry yet. -/
def scanPaths (ing : Ingress) : List HTTPIngressPath → Inventory → Inventory
  | [], m => m
  | p :: ps, m =>
    let svcName := p.Backend.ServiceName
    match m svcName with
    | some _ => scanPaths ing ps m
    | none => scanPaths ing ps (m.insert svcName ing)

/-- The loop over the rules of one ingress (lines 172-180).  `rules[j].HTTP.Paths`
dereferences the `HTTP` pointer: on a nil pointer the program panics (`none`). -/
def scanRules (ing : Ingress) : List IngressRule → Inventory → Option Inventory
  | [], m => some m
  | r :: rs, m =>
    match r.HTTP with
    | none => none
    | some http => scanRules ing rs (scanPaths ing http.Paths m)

/-- The loop over the listed ingresses (lines 170-181). -/
def scanIngresses : List Ingress → Inventory → Option Inventory
  | [], m => some m
  | ing :: rest, m =>
    match scanRules ing ing.Spec.Rules m with
    | none => none
    | some m1 => scanIngresses rest m1

/-- The loop over the listed services (lines 184-206); the second component is the error
returned from inside the loop, if any. -/
def serviceLoop {σ : Type} (cfg : Config) (cs : Clientset σ) :
    List Service → State σ → State σ × Option Error
  | [], st => (st, none)
  | svc :: rest, st =>
    let lb := svc.Labels
    let svcName := svc.Name
    match st.svcIngPair svcName with
    | none =>
      match lb.lookup "public" with
      | none => serviceLoop cfg cs rest st
      | some val =>
        if val = "true" then
          match createIngressForService cfg cs st svc with
          | (st1, Except.error err) => (st1, some err)
          | (st1, Except.ok newIng) =>
            serviceLoop cfg cs rest { st1 with svcIngPair := st1.svcIngPair.insert svc.Name newIng }
        else serviceLoop cfg cs rest st
    | some _ =>
      match lb.lookup "public" with
      | some val =>
        if val = "false" then
          serviceLoop cfg cs rest { st with svcIngPair := st.svcIngPair.delete svcName }
        else serviceLoop cfg cs rest st
      | none => serviceLoop cfg cs rest { st with svcIngPair := st.svcIngPair.delete svcName }

/-- How a run of `createIngressServiceMap` ends: it returns (with `nil` or an error), or the
program panics on a nil dereference. -/
inductive BootResult (σ : Type) where
  | returned (st : State σ) (err : Option Error)
  | panicked (st : State σ)

/-- Go `createIngressServiceMap` (lines 154-209), run on the map `st.svcIngPair`. -/
def createIngressServiceMap {σ : Type} (cfg : Config) (cs : Clientset σ) (st : State σ) :
    BootResult σ :=
  let r1 := cs.ServicesList st.world
  let st1 : State σ := { st with world := r1.2, calls := st.calls ++ [Call.listServices] }
  match r1.1 with
  | Except.error err => BootResult.returned st1 (some err)
  | Except.ok services =>
    let r2 := cs.IngressesList st1.world
    let st2 : State σ := { st1 with world := r2.2, calls := st1.calls ++ [Call.listIngresses] }
    match r2.1 with
    | Except.error err => BootResult.returned st2 (some err)
    | Except.ok ingresses =>
      match scanIngresses ingresses st2.svcIngPair with
      | none => BootResult.panicked st2
      | some m =>
        let r3 := serviceLoop cfg cs services { st2 with svcIngPair := m }
        BootResult.returned r3.1 r3.2

/-- The state a run of `createIngressServiceMap` leaves behind. -/
def BootResult.state {σ : Type} : BootResult σ → State σ
  | BootResult.returned st _ => st
  | BootResult.panicked st => st

/-- The error value a run returns (`none` for `nil`, and for a run that panics). -/
def BootResult.err {σ : Type} : BootResult σ → Option Error
  | BootResult.returned _ e => e
  | BootResult.panicked _ => none

/-- Whether the run ends in a panic. -/
def BootResult.panics {σ : Type} : BootResult σ → Bool
  | BootResult.returned _ _ => false
  | BootResult.panicked _ => true

/-! ## Vocabulary for the result of the start-up pass -/

/-- The backend service names of the paths of one rule (none for a rule without an HTTP
section). -/
def ruleBackendNames (r : IngressRule) : List String :=
  match r.HTTP with
  | none => []
  | some http => http.Paths.map (fun p => p.Backend.ServiceName)

/-- The service names that appear as the backend of some path of some rule of some listed
ingress. -/
def backendNames (ingresses : List Ingress) : List String :=
  ingresses.flatMap (fun ing => ing.Spec.Rules.flatMap ruleBackendNames)

/-- The label test of lines 188-189, 87-88 and 130-131: the key `public` is present with
the value `"true"`. -/
def isPublic (s : Service) : Prop := s.Labels.lookup "public" = some "true"

/-- The label test of lines 198-204 (and 116-122): the key `public` is absent, or present
with the value `"false"`. -/
def dropsEntry (s : Service) : Prop :=
  s.Labels.lookup "public" = none ∨ s.Labels.lookup "public" = some "false"

/-- Whether the name `n` has an entry after the loop over `services`, told from the labels
alone, where `before` says whether it had one when the loop started: either some listed
service named `n` is public and no later service named `n` drops the entry, or the name
had an entry and no listed service named `n` drops it. -/
def keptName (services : List Service) (n : String) (before : Prop) : Prop :=
  (∃ pre s post, services = pre ++ s :: post ∧ s.Name = n ∧ isPublic s ∧
      ∀ t ∈ post, t.Name = n → ¬ dropsEntry t) ∨
  (before ∧ ∀ t ∈ services, t.Name = n → ¬ dropsEntry t)

/-- Whether the name `n` has an entry after one round of the loop, for service `svc`. -/
def keptStep (svc : Service) (n : String) (before : Prop) : Prop :=
  (svc.Name = n ∧ (isPublic svc ∨ (before ∧ ¬ dropsEntry svc))) ∨ (svc.Name ≠ n ∧ before)

instance (s : Service) : Decidable (isPublic s) := by unfold isPublic; infer_instance

instance (s : Service) : Decidable (dropsEntry s) := by unfold dropsEntry; infer_instance

/-! ## Concrete objects used in the worked examples -/

/-- A cluster over the trivial world whose lists are fixed and whose create and delete
requests succeed or fail as the two flags say; a successful create returns the object it
was sent. -/
def fixedCluster (services : List Service) (ingresses : List Ingress)
    (createOk deleteOk : Bool) : Clientset Unit where
  ServicesList := fun w => (Except.ok services, w)
  IngressesList := fun w => (Except.ok ingresses, w)
  IngressesCreate := fun _ ing w =>
    (if createOk then Except.ok ing else Except.error "create failed", w)
  IngressesDelete := fun _ _ w => (if deleteOk then none else some "delete failed", w)

/-- The configuration of the worked example: domain `example.com`, secret `tls-default`. -/
def exampleConfig : Config := { wildcardRecord := "example.com", secret := "tls-default" }

/-- Service `name` in namespace `ns` with one port 8080 and the given labels. -/
def mkService (ns name : String) (labels : List (String × String)) : Service :=
  { Name := name, Namespace := ns, Labels := labels, Spec := { Ports := [{ Port := 8080 }] } }

/-- The ingress the controller builds for the public service `name` in namespace `ns`. -/
def mkIngress (ns name : String) : Ingress :=
  let svc := mkService ns name [("public", "true")]
  createIngress exampleConfig svc (createIngressBackend svc)

/-- A start state over the trivial world with the given map and an empty log. -/
def startState (m : Inventory) : State Unit := { svcIngPair := m, world := (), calls := [] }

/-- A cluster with nothing listed on which every create and delete request succeeds. -/
def okCluster : Clientset Unit := fixedCluster [] [] true true

/-- A cluster with nothing listed on which every create and delete request fails. -/
def failingCluster : Clientset Unit := fixedCluster [] [] false false

/-- The state in which the map tracks `api` with the ingress built for `ns1/api`. -/
def trackedApi : State Unit := startState (Inventory.empty.insert "api" (mkIngress "ns1" "api"))

/-- An ingress named `web-ing` in namespace `edge` whose single path points to
service `api`. -/
def edgeIngress : Ingress :=
  { Name := "web-ing", Namespace := "edge",
    Spec := { TLS := [],
              Rules := [{ Host := "web.example.com",
                          HTTP := some { Paths := [{ Path := "/",
                                                     Backend := { ServiceName := "api" } }] } }] } }

/-- An ingress named `ghost-ing` in namespace `edge` whose single path points to a
service name `ghost`. -/
def ghostIngress : Ingress :=
  { Name := "ghost-ing", Namespace := "edge",
    Spec := { TLS := [],
              Rules := [{ Host := "ghost.example.com",
                          HTTP := some { Paths := [{ Path := "/",
                                                     Backend := { ServiceName := "ghost" } }] } }] } }

/-- An ingress named `bare` whose single rule has no HTTP section. -/
def bareIngress : Ingress :=
  { Name := "bare", Namespace := "edge",
    Spec := { TLS := [], Rules := [{ Host := "bare.example.com", HTTP := none }] } }

/-- A cluster over a counter world: the lists are fixed, the world counts the create
requests received so far, and a create request succeeds (returning the object it was
sent) exactly while fewer than `okCreates` requests have been received; delete requests
succeed. -/
def countingCluster (services : List Service) (ingresses : List Ingress) (okCreates : Nat) :
    Clientset Nat where
  ServicesList := fun w => (Except.ok services, w)
  IngressesList := fun w => (Except.ok ingresses, w)
  IngressesCreate := fun _ ing w =>
    (if w < okCreates then Except.ok ing else Except.error "create failed", w + 1)
  IngressesDelete := fun _ _ w => (none, w)

/-- A cluster whose first list request fails. -/
def noServicesCluster : Clientset Unit where
  ServicesList := fun w => (Except.error "list services failed", w)
  IngressesList := fun w => (Except.ok [], w)
  IngressesCreate := fun _ ing w => (Except.ok ing, w)
  IngressesDelete := fun _ _ w => (none, w)

/-- A cluster whose second list request fails. -/
def noIngressesCluster (services : List Service) : Clientset Unit where
  ServicesList := fun w => (Except.ok services, w)
  IngressesList := fun w => (Except.error "list ingresses failed", w)
  IngressesCreate := fun _ ing w => (Except.ok ing, w)
  IngressesDelete := fun _ _ w => (none, w)

/-- The backend service names of all paths of all rules of one ingress. -/
def ingressBackendNames (ing : Ingress) : List String :=
  ing.Spec.Rules.flatMap ruleBackendNames

/-- The first ingress of the list, in list order, one of whose paths has the backend
service name `n`. -/
def firstReferencing (ingresses : List Ingress) (n : String) : Option Ingress :=
  ingresses.find? (fun ing => decide (n ∈ ingressBackendNames ing))

/-- An ingress named `second-ing` in namespace `edge` with two paths, to `api` and to
`web`. -/
def secondIngress : Ingress :=
  { Name := "second-ing", Namespace := "edge",
    Spec := { TLS := [],
              Rules := [{ Host := "second.example.com",
                          HTTP := some { Paths := [{ Path := "/a",
                                                     Backend := { ServiceName := "api" } },
                                                   { Path := "/w",
                                                     Backend := { ServiceName := "web" } }] } }] } }

/-- An ingress named `empty-ing` whose single rule has an HTTP section with no paths. -/
def emptyPathsIngress : Ingress :=
  { Name := "empty-ing", Namespace := "edge",
    Spec := { TLS := [],
              Rules := [{ Host := "empty.example.com", HTTP := some { Paths := [] } }] } }

/-- The Go zero value `IngressBackend{}`: empty service name, integer port zero. -/
def emptyBackend : IngressBackend :=
  { ServiceName := "", ServicePort := { Type_ := IntstrType.Int, IntVal := 0, StrVal := "" } }

/-! ## Theorems -/

/-! ### Routing object builder -/

/-- C1: for every service, backend, wildcard domain and secret name, `createIngress`
returns an ingress named like the service, in the service's namespace, with exactly one
TLS entry (hosts exactly `[name.domain]`, the configured secret) and exactly one rule
(host `name.domain`) that has exactly one path, `/`, pointing to the given backend; for
service `api` in `ns1`, domain `example.com` and secret `tls-default` the host is
`api.example.com`. -/
theorem createIngress_shape (d t : String) (s : Service) (b : IngressBackend) :
    (createIngress { wildcardRecord := d, secret := t } s b).Name = s.Name ∧
    (createIngress { wildcardRecord := d, secret := t } s b).Namespace = s.Namespace ∧
    (createIngress { wildcardRecord := d, secret := t } s b).Spec.TLS
      = [{ Hosts := [s.Name ++ "." ++ d], SecretName := t }] ∧
    (createIngress { wildcardRecord := d, secret := t } s b).Spec.Rules
      = [{ Host := s.Name ++ "." ++ d,
           HTTP := some { Paths := [{ Path := "/", Backend := b }] } }] ∧
    createIngress { wildcardRecord := "example.com", secret := "tls-default" }
        (mkService "ns1" "api" [("public", "true")]) b
      = { Name := "api", Namespace := "ns1",
          Spec := { TLS := [{ Hosts := ["api.example.com"], SecretName := "tls-default" }],
                    Rules := [{ Host := "api.example.com",
                                HTTP := some { Paths := [{ Path := "/", Backend := b }] } }] } } := by
  refine ⟨rfl, rfl, rfl, rfl, ?_⟩
  simp only [createIngress, mkService]
  have h : "api" ++ "." ++ "example.com" = "api.example.com" := by decide
  rw [h]

/-- The conversion `int32(v)` keeps every value that already is an `int32`. -/
theorem toInt32_of_isInt32 (x : Int) (h : isInt32 x) : toInt32 x = x := by
  unfold isInt32 at h
  unfold toInt32
  omega

/-- C2: for every service whose port list is `p :: rest` with `p.Port` an `int32` value,
`createIngressBackend` returns the backend named like the service whose port is the
integer-typed value equal to `p.Port`, whatever `rest` is. -/
theorem createIngressBackend_first_port (s : Service) (p : ServicePort)
    (rest : List ServicePort) (hports : s.Spec.Ports = p :: rest) (hp : isInt32 p.Port) :
    createIngressBackend s
      = { ServiceName := s.Name,
          ServicePort := { Type_ := IntstrType.Int, IntVal := p.Port, StrVal := "" } } := by
  simp only [createIngressBackend, hports, FromInt, int32ToInt, toInt32_of_isInt32 _ hp]

/-- Witness for C2: ports `[2147483647, 443]` give backend port `2147483647`. -/
theorem createIngressBackend_first_port_witness :
    isInt32 2147483647 ∧
    createIngressBackend
        { Name := "api", Namespace := "ns1", Labels := [],
          Spec := { Ports := [{ Port := 2147483647 }, { Port := 443 }] } }
      = { ServiceName := "api",
          ServicePort := { Type_ := IntstrType.Int, IntVal := 2147483647, StrVal := "" } } :=
  ⟨by decide,
   createIngressBackend_first_port
     { Name := "api", Namespace := "ns1", Labels := [],
       Spec := { Ports := [{ Port := 2147483647 }, { Port := 443 }] } }
     { Port := 2147483647 } [{ Port := 443 }] rfl (by decide)⟩

/-! ### Update events on a tracked service -/

/-- Counterexample to C3: with `api` tracked, an Update whose labels carry `public=""`
issues no call and keeps the entry, while an Update without the `public` key issues one
delete call and removes the entry. -/
theorem update_empty_public_differs :
    (UpdateFunc exampleConfig okCluster trackedApi
        (mkService "ns1" "api" [("public", "true")]) (mkService "ns1" "api" [("public", "")])).calls
      = [] ∧
    (UpdateFunc exampleConfig okCluster trackedApi
        (mkService "ns1" "api" [("public", "true")])
        (mkService "ns1" "api" [("public", "")])).svcIngPair "api"
      = some (mkIngress "ns1" "api") ∧
    (UpdateFunc exampleConfig okCluster trackedApi
        (mkService "ns1" "api" [("public", "true")]) (mkService "ns1" "api" [])).calls
      = [Call.delete "ns1" "api"] ∧
    (UpdateFunc exampleConfig okCluster trackedApi
        (mkService "ns1" "api" [("public", "true")]) (mkService "ns1" "api" [])).svcIngPair "api"
      = none := by
  decide

/-- C3 (amended): on a map that holds an entry for the service, an Update whose labels
carry `public="false"` and an Update whose labels lack the `public` key have the same
outcome, one delete call (service's namespace, recorded ingress's name) and the entry
removed; an Update whose `public` label has any other value, `""` included, issues no
call and leaves the state as it was. -/
theorem update_tracked_label_cases {σ : Type} (cfg : Config) (cs : Clientset σ)
    (st : State σ) (oldSvc newSvc : Service) (ing : Ingress)
    (htracked : st.svcIngPair newSvc.Name = some ing) :
    ((newSvc.Labels.lookup "public" = none ∨ newSvc.Labels.lookup "public" = some "false") →
      UpdateFunc cfg cs st oldSvc newSvc
        = { svcIngPair := st.svcIngPair.delete newSvc.Name,
            world := (cs.IngressesDelete newSvc.Namespace ing.Name st.world).2,
            calls := st.calls ++ [Call.delete newSvc.Namespace ing.Name] }) ∧
    (∀ v, newSvc.Labels.lookup "public" = some v → v ≠ "false" →
      UpdateFunc cfg cs st oldSvc newSvc = st) := by
  refine ⟨?_, ?_⟩
  · rintro (h | h) <;> simp [UpdateFunc, htracked, h, sendDelete]
  · intro v h hv
    simp [UpdateFunc, htracked, h, hv]

/-- Witness for C3 (amended): `api` tracked, Update with `public="false"`. -/
theorem update_tracked_label_cases_witness :
    trackedApi.svcIngPair "api" = some (mkIngress "ns1" "api") ∧
    UpdateFunc exampleConfig okCluster trackedApi (mkService "ns1" "api" [])
        (mkService "ns1" "api" [("public", "false")])
      = { svcIngPair := trackedApi.svcIngPair.delete "api",
          world := (),
          calls := [Call.delete "ns1" "api"] } :=
  ⟨by decide,
   (update_tracked_label_cases exampleConfig okCluster trackedApi (mkService "ns1" "api" [])
      (mkService "ns1" "api" [("public", "false")]) (mkIngress "ns1" "api") (by decide)).1
      (Or.inr (by decide))⟩

/-! ### Failed cluster calls -/

/-- Counterexample to C4: with `api` tracked and a cluster on which the delete request
fails, a Delete event, and an Update event that drops the label, still remove the
entry. -/
theorem failed_delete_removes_entry :
    (failingCluster.IngressesDelete "ns1" "api" ()).1 = some "delete failed" ∧
    trackedApi.svcIngPair "api" = some (mkIngress "ns1" "api") ∧
    (DeleteFunc failingCluster trackedApi (mkService "ns1" "api" [("public", "true")])).calls
      = [Call.delete "ns1" "api"] ∧
    (DeleteFunc failingCluster trackedApi
        (mkService "ns1" "api" [("public", "true")])).svcIngPair "api" = none ∧
    (UpdateFunc exampleConfig failingCluster trackedApi
        (mkService "ns1" "api" [("public", "true")]) (mkService "ns1" "api" [])).svcIngPair "api"
      = none := by
  decide

/-- C4 (amended): for every Delete event on a tracked service and every Update event on a
tracked service whose `public` label is absent or `"false"`, if the delete call issued to
the cluster fails, the map after the event is the map before it without the service's
entry: the result of the delete call is not looked at. -/
theorem failed_delete_still_removes {σ : Type} (cfg : Config) (cs : Clientset σ)
    (st : State σ) (oldSvc svc : Service) (ing : Ingress) (e : Error)
    (htracked : st.svcIngPair svc.Name = some ing)
    (_hfail : (cs.IngressesDelete svc.Namespace ing.Name st.world).1 = some e) :
    (DeleteFunc cs st svc).svcIngPair = st.svcIngPair.delete svc.Name ∧
    ((svc.Labels.lookup "public" = none ∨ svc.Labels.lookup "public" = some "false") →
      (UpdateFunc cfg cs st oldSvc svc).svcIngPair = st.svcIngPair.delete svc.Name) := by
  refine ⟨?_, ?_⟩
  · simp [DeleteFunc, htracked, sendDelete]
  · rintro (h | h) <;> simp [UpdateFunc, htracked, h, sendDelete]

/-- Witness for C4 (amended): `api` tracked, the delete request fails. -/
theorem failed_delete_still_removes_witness :
    trackedApi.svcIngPair "api" = some (mkIngress "ns1" "api") ∧
    (failingCluster.IngressesDelete "ns1" "api" ()).1 = some "delete failed" ∧
    (DeleteFunc failingCluster trackedApi (mkService "ns1" "api" [])).svcIngPair
      = trackedApi.svcIngPair.delete "api" ∧
    (UpdateFunc exampleConfig failingCluster trackedApi (mkService "ns1" "api" [])
        (mkService "ns1" "api" [])).svcIngPair
      = trackedApi.svcIngPair.delete "api" :=
  ⟨by decide, by decide,
   (failed_delete_still_removes exampleConfig failingCluster trackedApi
      (mkService "ns1" "api" []) (mkService "ns1" "api" []) (mkIngress "ns1" "api")
      "delete failed" (by decide) (by decide)).1,
   (failed_delete_still_removes exampleConfig failingCluster trackedApi
      (mkService "ns1" "api" []) (mkService "ns1" "api" []) (mkIngress "ns1" "api")
      "delete failed" (by decide) (by decide)).2 (Or.inl (by decide))⟩

/-- An event that appends exactly a create request to the log found the service
untracked and labelled `public="true"`. -/
theorem addFunc_create_inv {σ : Type} (cfg : Config) (cs : Clientset σ) (st : State σ)
    (svc : Service) (c : Call)
    (h : (AddFunc cfg cs st svc).calls = st.calls ++ [c]) :
    st.svcIngPair svc.Name = none ∧ svc.Labels.lookup "public" = some "true" := by
  unfold AddFunc at h
  cases hm : st.svcIngPair svc.Name with
  | some ing => simp [hm] at h
  | none =>
    cases hl : svc.Labels.lookup "public" with
    | none => simp [hm, hl] at h
    | some val =>
      by_cases hv : val = "true"
      · simp [hv]
      · simp [hm, hl, hv] at h

/-- An Update event that appends exactly a create request to the log found the service
untracked and labelled `public="true"`. -/
theorem updateFunc_create_inv {σ : Type} (cfg : Config) (cs : Clientset σ) (st : State σ)
    (oldSvc svc : Service) (ns : String) (i : Ingress)
    (h : (UpdateFunc cfg cs st oldSvc svc).calls = st.calls ++ [Call.create ns i]) :
    st.svcIngPair svc.Name = none ∧ svc.Labels.lookup "public" = some "true" := by
  unfold UpdateFunc at h
  cases hm : st.svcIngPair svc.Name with
  | some ing =>
    cases hl : svc.Labels.lookup "public" with
    | none => simp [hm, hl, sendDelete] at h
    | some val =>
      by_cases hv : val = "false"
      · simp [hm, hl, hv, sendDelete] at h
      · simp [hm, hl, hv] at h
  | none =>
    cases hl : svc.Labels.lookup "public" with
    | none => simp [hm, hl] at h
    | some val =>
      by_cases hv : val = "true"
      · simp [hv]
      · simp [hm, hl, hv] at h

/-- C5: for every Add event and every Update event that issues a create call, if that
create call fails, the handler returns the state whose map is the map before the event
(no entry inserted), whose log has the one create request appended and whose world is the
one the cluster answered with. -/
theorem create_failure_keeps_inventory {σ : Type} (cfg : Config) (cs : Clientset σ)
    (st : State σ) (oldSvc svc : Service) (e : Error)
    (hfail : (cs.IngressesCreate svc.Namespace
        (createIngress cfg svc (createIngressBackend svc)) st.world).1 = Except.error e) :
    ((AddFunc cfg cs st svc).calls
        = st.calls ++ [Call.create svc.Namespace (createIngress cfg svc (createIngressBackend svc))] →
      AddFunc cfg cs st svc
        = { svcIngPair := st.svcIngPair,
            world := (cs.IngressesCreate svc.Namespace
              (createIngress cfg svc (createIngressBackend svc)) st.world).2,
            calls := st.calls
              ++ [Call.create svc.Namespace (createIngress cfg svc (createIngressBackend svc))] }) ∧
    ((UpdateFunc cfg cs st oldSvc svc).calls
        = st.calls ++ [Call.create svc.Namespace (createIngress cfg svc (createIngressBackend svc))] →
      UpdateFunc cfg cs st oldSvc svc
        = { svcIngPair := st.svcIngPair,
            world := (cs.IngressesCreate svc.Namespace
              (createIngress cfg svc (createIngressBackend svc)) st.world).2,
            calls := st.calls
              ++ [Call.create svc.Namespace (createIngress cfg svc (createIngressBackend svc))] }) := by
  refine ⟨?_, ?_⟩
  · intro h
    obtain ⟨hm, hl⟩ := addFunc_create_inv cfg cs st svc _ h
    simp [AddFunc, hm, hl, createIngressForService, hfail]
  · intro h
    obtain ⟨hm, hl⟩ := updateFunc_create_inv cfg cs st oldSvc svc _ _ h
    simp [UpdateFunc, hm, hl, createIngressForService, hfail]

/-- Witness for C5: `api` untracked and public, the create request fails. -/
theorem create_failure_keeps_inventory_witness :
    (failingCluster.IngressesCreate "ns1" (mkIngress "ns1" "api") ()).1
      = Except.error "create failed" ∧
    AddFunc exampleConfig failingCluster (startState Inventory.empty)
        (mkService "ns1" "api" [("public", "true")])
      = { svcIngPair := Inventory.empty, world := (),
          calls := [Call.create "ns1" (mkIngress "ns1" "api")] } ∧
    UpdateFunc exampleConfig failingCluster (startState Inventory.empty)
        (mkService "ns1" "api" []) (mkService "ns1" "api" [("public", "true")])
      = { svcIngPair := Inventory.empty, world := (),
          calls := [Call.create "ns1" (mkIngress "ns1" "api")] } :=
  ⟨rfl,
   (create_failure_keeps_inventory exampleConfig failingCluster (startState Inventory.empty)
      (mkService "ns1" "api" []) (mkService "ns1" "api" [("public", "true")])
      "create failed" rfl).1 (by decide),
   (create_failure_keeps_inventory exampleConfig failingCluster (startState Inventory.empty)
      (mkService "ns1" "api" []) (mkService "ns1" "api" [("public", "true")])
      "create failed" rfl).2 (by decide)⟩

/-! ### Delete events and the key of the map -/

/-- Counterexample to C6: the start-up pass over the snapshot with the single service
`ns1/api` (public) and the single ingress `edge/web-ing` (backend `api`) records
`edge/web-ing` for `api`; the Delete event for `ns1/api` then sends its delete request to
namespace `ns1`, not to the recorded object's namespace `edge`. -/
theorem delete_call_uses_service_namespace :
    (createIngressServiceMap exampleConfig
        (fixedCluster [mkService "ns1" "api" [("public", "true")]] [edgeIngress] true true)
        (startState Inventory.empty)).state.svcIngPair "api" = some edgeIngress ∧
    edgeIngress.Namespace = "edge" ∧ edgeIngress.Name = "web-ing" ∧
    (DeleteFunc okCluster (startState (Inventory.empty.insert "api" edgeIngress))
        (mkService "ns1" "api" [("public", "true")])).calls
      = [Call.delete "ns1" "web-ing"] ∧
    (DeleteFunc okCluster (startState (Inventory.empty.insert "api" edgeIngress))
        (mkService "ns1" "api" [("public", "true")])).calls
      ≠ [Call.delete "edge" "web-ing"] := by
  decide

/-- C6 (amended): on a map that holds an entry for the service's name, a Delete event
issues exactly one delete call, addressed to the service's namespace and the name of the
recorded ingress, and the resulting map has no entry for the service. -/
theorem delete_tracked {σ : Type} (cs : Clientset σ) (st : State σ) (svc : Service)
    (ing : Ingress) (htracked : st.svcIngPair svc.Name = some ing) :
    (DeleteFunc cs st svc).calls = st.calls ++ [Call.delete svc.Namespace ing.Name] ∧
    (DeleteFunc cs st svc).svcIngPair svc.Name = none := by
  simp [DeleteFunc, htracked, sendDelete, Inventory.delete]

/-- Witness for C6 (amended): `api` tracked with `edge/web-ing`, Delete event for
`ns1/api`. -/
theorem delete_tracked_witness :
    (startState (Inventory.empty.insert "api" edgeIngress)).svcIngPair "api" = some edgeIngress ∧
    (DeleteFunc okCluster (startState (Inventory.empty.insert "api" edgeIngress))
        (mkService "ns1" "api" [])).calls = [Call.delete "ns1" "web-ing"] ∧
    (DeleteFunc okCluster (startState (Inventory.empty.insert "api" edgeIngress))
        (mkService "ns1" "api" [])).svcIngPair "api" = none :=
  ⟨by decide,
   delete_tracked okCluster (startState (Inventory.empty.insert "api" edgeIngress))
     (mkService "ns1" "api" []) edgeIngress (by decide)⟩

/-- Counterexample to C7: while the map tracks only `ns1/api`, an Add event for the
public service `ns2/api` issues no create call, and a Delete event for `ns2/api` removes
the entry recorded for `ns1/api`. -/
theorem same_name_other_namespace_collides :
    trackedApi.svcIngPair "api" = some (mkIngress "ns1" "api") ∧
    (AddFunc exampleConfig okCluster trackedApi (mkService "ns2" "api" [("public", "true")])).calls
      = [] ∧
    (DeleteFunc okCluster trackedApi (mkService "ns2" "api" [("public", "true")])).calls
      = [Call.delete "ns2" "api"] ∧
    (DeleteFunc okCluster trackedApi (mkService "ns2" "api" [("public", "true")])).svcIngPair "api"
      = none := by
  decide

/-- C7 (amended): the map is keyed by the service name alone.  For every two services
with the same name, whatever their namespaces, an entry for one is the entry for the
other: while the name is tracked, an Add event for the second service changes nothing
and issues no call, and a Delete event for the second service issues one delete call
(second service's namespace, recorded ingress's name) and removes the entry. -/
theorem inventory_keyed_by_name {σ : Type} (cfg : Config) (cs : Clientset σ) (st : State σ)
    (s1 s2 : Service) (ing : Ingress) (hname : s1.Name = s2.Name)
    (htracked : st.svcIngPair s1.Name = some ing) :
    AddFunc cfg cs st s2 = st ∧
    (DeleteFunc cs st s2).calls = st.calls ++ [Call.delete s2.Namespace ing.Name] ∧
    (DeleteFunc cs st s2).svcIngPair s1.Name = none := by
  rw [hname] at htracked
  simp [AddFunc, DeleteFunc, htracked, sendDelete, Inventory.delete, hname]

/-- Witness for C7 (amended): `ns1/api` and `ns2/api` with `api` tracked. -/
theorem inventory_keyed_by_name_witness :
    (mkService "ns1" "api" [("public", "true")]).Name
      = (mkService "ns2" "api" [("public", "true")]).Name ∧
    trackedApi.svcIngPair "api" = some (mkIngress "ns1" "api") ∧
    AddFunc exampleConfig okCluster trackedApi (mkService "ns2" "api" [("public", "true")])
      = trackedApi ∧
    (DeleteFunc okCluster trackedApi (mkService "ns2" "api" [("public", "true")])).calls
      = [Call.delete "ns2" "api"] ∧
    (DeleteFunc okCluster trackedApi (mkService "ns2" "api" [("public", "true")])).svcIngPair "api"
      = none :=
  ⟨by decide, by decide,
   inventory_keyed_by_name exampleConfig okCluster trackedApi
     (mkService "ns1" "api" [("public", "true")]) (mkService "ns2" "api" [("public", "true")])
     (mkIngress "ns1" "api") (by decide) (by decide)⟩

/-! ### Add and Update events -/

/-- C9: for every service labelled `public="true"` with no entry in the map, an Add
event, and likewise an Update event whose new object is that service, appends exactly one
request to the log, the create request for the ingress built from the service in the
service's namespace (so no delete request), and when the create call succeeds the
resulting map is the old map with the one entry added that maps the service's name to
the ingress the create call returned. -/
theorem create_for_untracked_public {σ : Type} (cfg : Config) (cs : Clientset σ)
    (st : State σ) (oldSvc s : Service)
    (hpub : s.Labels.lookup "public" = some "true")
    (huntracked : st.svcIngPair s.Name = none) :
    (AddFunc cfg cs st s).calls
      = st.calls ++ [Call.create s.Namespace (createIngress cfg s (createIngressBackend s))] ∧
    (UpdateFunc cfg cs st oldSvc s).calls
      = st.calls ++ [Call.create s.Namespace (createIngress cfg s (createIngressBackend s))] ∧
    (∀ newIng,
      (cs.IngressesCreate s.Namespace (createIngress cfg s (createIngressBackend s)) st.world).1
        = Except.ok newIng →
      (AddFunc cfg cs st s).svcIngPair = st.svcIngPair.insert s.Name newIng ∧
      (UpdateFunc cfg cs st oldSvc s).svcIngPair = st.svcIngPair.insert s.Name newIng) := by
  cases hc : (cs.IngressesCreate s.Namespace
      (createIngress cfg s (createIngressBackend s)) st.world).1 with
  | error e => simp [AddFunc, UpdateFunc, huntracked, hpub, createIngressForService, hc]
  | ok r =>
    refine ⟨?_, ?_, ?_⟩
    · simp [AddFunc, huntracked, hpub, createIngressForService, hc]
    · simp [UpdateFunc, huntracked, hpub, createIngressForService, hc]
    · intro newIng hok
      cases hok
      simp [AddFunc, UpdateFunc, huntracked, hpub, createIngressForService, hc]

/-- Witness for C9: `ns1/api`, public and untracked, on a cluster whose create succeeds. -/
theorem create_for_untracked_public_witness :
    (mkService "ns1" "api" [("public", "true")]).Labels.lookup "public" = some "true" ∧
    (startState Inventory.empty).svcIngPair "api" = none ∧
    (AddFunc exampleConfig okCluster (startState Inventory.empty)
        (mkService "ns1" "api" [("public", "true")])).calls
      = [Call.create "ns1" (mkIngress "ns1" "api")] ∧
    (UpdateFunc exampleConfig okCluster (startState Inventory.empty) (mkService "ns1" "api" [])
        (mkService "ns1" "api" [("public", "true")])).calls
      = [Call.create "ns1" (mkIngress "ns1" "api")] ∧
    (AddFunc exampleConfig okCluster (startState Inventory.empty)
        (mkService "ns1" "api" [("public", "true")])).svcIngPair
      = Inventory.empty.insert "api" (mkIngress "ns1" "api") ∧
    (UpdateFunc exampleConfig okCluster (startState Inventory.empty) (mkService "ns1" "api" [])
        (mkService "ns1" "api" [("public", "true")])).svcIngPair
      = Inventory.empty.insert "api" (mkIngress "ns1" "api") :=
  ⟨by decide, by decide,
   (create_for_untracked_public exampleConfig okCluster (startState Inventory.empty)
      (mkService "ns1" "api" []) (mkService "ns1" "api" [("public", "true")])
      (by decide) (by decide)).1,
   (create_for_untracked_public exampleConfig okCluster (startState Inventory.empty)
      (mkService "ns1" "api" []) (mkService "ns1" "api" [("public", "true")])
      (by decide) (by decide)).2.1,
   ((create_for_untracked_public exampleConfig okCluster (startState Inventory.empty)
      (mkService "ns1" "api" []) (mkService "ns1" "api" [("public", "true")])
      (by decide) (by decide)).2.2 (mkIngress "ns1" "api") rfl).1,
   ((create_for_untracked_public exampleConfig okCluster (startState Inventory.empty)
      (mkService "ns1" "api" []) (mkService "ns1" "api" [("public", "true")])
      (by decide) (by decide)).2.2 (mkIngress "ns1" "api") rfl).2⟩

/-- An Add event for a service whose name has an entry returns the state unchanged. -/
theorem addFunc_tracked {σ : Type} (cfg : Config) (cs : Clientset σ) (st : State σ)
    (svc : Service) (h : (st.svcIngPair svc.Name).isSome) : AddFunc cfg cs st svc = st := by
  obtain ⟨ing, hing⟩ := Option.isSome_iff_exists.mp h
  simp [AddFunc, hing]

/-- C10: on a map that already holds an entry for a service, Add events for that
service, whatever their labels and however many of them are processed one after the
other, issue no call and leave the map (indeed the whole state) unchanged. -/
theorem add_tracked_noop {σ : Type} (cfg : Config) (cs : Clientset σ) (st : State σ)
    (svcs : List Service) (htracked : ∀ s ∈ svcs, (st.svcIngPair s.Name).isSome) :
    svcs.foldl (AddFunc cfg cs) st = st := by
  induction svcs with
  | nil => rfl
  | cons s rest ih =>
    have hs : AddFunc cfg cs st s = st :=
      addFunc_tracked cfg cs st s (htracked s (List.mem_cons_self s rest))
    rw [List.foldl_cons, hs]
    exact ih (fun t ht => htracked t (List.mem_cons_of_mem s ht))

/-- Witness for C10: three Add events for the tracked `api`, with different labels. -/
theorem add_tracked_noop_witness :
    (∀ s ∈ [mkService "ns1" "api" [("public", "true")], mkService "ns1" "api" [],
            mkService "ns1" "api" [("public", "false")]],
      (trackedApi.svcIngPair s.Name).isSome) ∧
    [mkService "ns1" "api" [("public", "true")], mkService "ns1" "api" [],
      mkService "ns1" "api" [("public", "false")]].foldl (AddFunc exampleConfig okCluster)
        trackedApi = trackedApi :=
  ⟨by decide,
   add_tracked_noop exampleConfig okCluster trackedApi
     [mkService "ns1" "api" [("public", "true")], mkService "ns1" "api" [],
      mkService "ns1" "api" [("public", "false")]] (by decide)⟩

/-! ### The start-up pass -/

/-- After the innermost loop a name has an entry exactly when it had one before or is the
backend of one of the paths. -/
theorem scanPaths_isSome (ing : Ingress) (ps : List HTTPIngressPath) (m : Inventory)
    (n : String) :
    (scanPaths ing ps m n).isSome
      ↔ (m n).isSome ∨ n ∈ ps.map (fun p => p.Backend.ServiceName) := by
  induction ps generalizing m with
  | nil => simp [scanPaths]
  | cons p ps ih =>
    cases hm : m p.Backend.ServiceName with
    | some x =>
      simp only [scanPaths, hm, ih, List.map_cons, List.mem_cons]
      constructor
      · rintro (h | h)
        · exact Or.inl h
        · exact Or.inr (Or.inr h)
      · rintro (h | h | h)
        · exact Or.inl h
        · left
          rw [h, hm]
          rfl
        · exact Or.inr h
    | none =>
      simp only [scanPaths, hm, ih, List.map_cons, List.mem_cons, Inventory.insert]
      by_cases hn : n = p.Backend.ServiceName
      · simp [hn]
      · simp [hn]

/-- The loop over the rules of an ingress whose rules all have an HTTP section does not
panic, and afterwards a name has an entry exactly when it had one before or is a backend
of one of the rules. -/
theorem scanRules_isSome (ing : Ingress) (rules : List IngressRule) (m : Inventory)
    (hhttp : ∀ r ∈ rules, r.HTTP.isSome) :
    ∃ m1, scanRules ing rules m = some m1 ∧
      ∀ n, (m1 n).isSome ↔ (m n).isSome ∨ n ∈ rules.flatMap ruleBackendNames := by
  induction rules generalizing m with
  | nil => exact ⟨m, rfl, by simp⟩
  | cons r rs ih =>
    have hr : r.HTTP.isSome := hhttp r (List.mem_cons_self r rs)
    obtain ⟨http, hhttpr⟩ := Option.isSome_iff_exists.mp hr
    obtain ⟨m1, hm1, hkeys⟩ :=
      ih (scanPaths ing http.Paths m) (fun t ht => hhttp t (List.mem_cons_of_mem r ht))
    refine ⟨m1, ?_, ?_⟩
    · simp only [scanRules, hhttpr, hm1]
    · intro n
      rw [hkeys n, scanPaths_isSome]
      simp only [List.flatMap_cons, List.mem_append, ruleBackendNames, hhttpr, or_assoc]

/-- The loop over the listed ingresses, when every rule has an HTTP section, does not
panic, and afterwards a name has an entry exactly when it had one before or is a backend
name of the list. -/
theorem scanIngresses_isSome (ingresses : List Ingress) (m : Inventory)
    (hhttp : ∀ ing ∈ ingresses, ∀ r ∈ ing.Spec.Rules, r.HTTP.isSome) :
    ∃ m1, scanIngresses ingresses m = some m1 ∧
      ∀ n, (m1 n).isSome ↔ (m n).isSome ∨ n ∈ backendNames ingresses := by
  induction ingresses generalizing m with
  | nil => exact ⟨m, rfl, by simp [backendNames]⟩
  | cons ing rest ih =>
    obtain ⟨m0, hm0, hkeys0⟩ :=
      scanRules_isSome ing ing.Spec.Rules m (hhttp ing (List.mem_cons_self ing rest))
    obtain ⟨m1, hm1, hkeys1⟩ := ih m0 (fun i hi => hhttp i (List.mem_cons_of_mem ing hi))
    refine ⟨m1, ?_, ?_⟩
    · simp only [scanIngresses, hm0, hm1]
    · intro n
      rw [hkeys1 n, hkeys0 n]
      simp only [backendNames, List.flatMap_cons, List.mem_append, or_assoc]

/-- On the empty service list nothing changes. -/
theorem keptName_nil (n : String) (before : Prop) : keptName [] n before ↔ before := by
  simp [keptName]

/-- The description of the loop's result only depends on whether the name had an entry. -/
theorem keptName_congr (services : List Service) (n : String) (b1 b2 : Prop) (h : b1 ↔ b2) :
    keptName services n b1 ↔ keptName services n b2 := by
  simp only [keptName, h]

/-- The description of the loop's result, one round at a time. -/
theorem keptName_cons (svc : Service) (rest : List Service) (n : String) (before : Prop) :
    keptName (svc :: rest) n before ↔ keptName rest n (keptStep svc n before) := by
  constructor
  · rintro (⟨pre, s, post, hsplit, hname, hpub, hpost⟩ | ⟨hb, hall⟩)
    · rcases List.cons_eq_append_iff.mp hsplit with ⟨hpre, hrest⟩ | ⟨pre1, hpre, hrest⟩
      · injection hrest with h1 h2
        subst h1
        subst h2
        exact Or.inr ⟨Or.inl ⟨hname, Or.inl hpub⟩, hpost⟩
      · exact Or.inl ⟨pre1, s, post, hrest, hname, hpub, hpost⟩
    · right
      refine ⟨?_, fun t ht => hall t (List.mem_cons_of_mem svc ht)⟩
      by_cases hn : svc.Name = n
      · exact Or.inl ⟨hn, Or.inr ⟨hb, hall svc (List.mem_cons_self svc rest) hn⟩⟩
      · exact Or.inr ⟨hn, hb⟩
  · rintro (⟨pre, s, post, hsplit, hname, hpub, hpost⟩ | ⟨hstep, hall⟩)
    · exact Or.inl ⟨svc :: pre, s, post, by rw [hsplit]; rfl, hname, hpub, hpost⟩
    · rcases hstep with ⟨hn, hpub | ⟨hb, hnd⟩⟩ | ⟨hn, hb⟩
      · exact Or.inl ⟨[], svc, rest, rfl, hn, hpub, hall⟩
      · refine Or.inr ⟨hb, ?_⟩
        intro t ht htn
        rcases List.mem_cons.mp ht with h | h
        · rw [h]
          exact hnd
        · exact hall t h htn
      · refine Or.inr ⟨hb, ?_⟩
        intro t ht htn
        rcases List.mem_cons.mp ht with h | h
        · rw [h] at htn
          exact absurd htn hn
        · exact hall t h htn

/-- When every create call succeeds, the loop over the listed services returns no error,
and afterwards a name has an entry exactly as `keptName` tells from the labels. -/
theorem serviceLoop_keys {σ : Type} (cfg : Config) (cs : Clientset σ)
    (hcreate : ∀ ns i w, ∃ r, (cs.IngressesCreate ns i w).1 = Except.ok r)
    (services : List Service) (st : State σ) :
    ∃ st1, serviceLoop cfg cs services st = (st1, none) ∧
      ∀ n, (st1.svcIngPair n).isSome ↔ keptName services n ((st.svcIngPair n).isSome) := by
  induction services generalizing st with
  | nil => exact ⟨st, rfl, fun n => (keptName_nil n _).symm⟩
  | cons svc rest ih =>
    have key : ∀ st0 : State σ,
        serviceLoop cfg cs (svc :: rest) st = serviceLoop cfg cs rest st0 →
        (∀ n, (st0.svcIngPair n).isSome ↔ keptStep svc n ((st.svcIngPair n).isSome)) →
        ∃ st1, serviceLoop cfg cs (svc :: rest) st = (st1, none) ∧
          ∀ n, (st1.svcIngPair n).isSome
            ↔ keptName (svc :: rest) n ((st.svcIngPair n).isSome) := by
      intro st0 hloop hstep
      obtain ⟨st1, h1, h2⟩ := ih st0
      refine ⟨st1, by rw [hloop, h1], fun n => ?_⟩
      rw [h2 n, keptName_cons]
      exact keptName_congr rest n _ _ (hstep n)
    cases hm : st.svcIngPair svc.Name with
    | none =>
      cases hl : svc.Labels.lookup "public" with
      | none =>
        refine key st (by simp [serviceLoop, hm, hl]) (fun n => ?_)
        by_cases hn : svc.Name = n
        · subst hn
          simp [keptStep, isPublic, hm, hl]
        · simp [keptStep, hn]
      | some val =>
        by_cases hv : val = "true"
        · subst hv
          obtain ⟨r, hr⟩ := hcreate svc.Namespace
            (createIngress cfg svc (createIngressBackend svc)) st.world
          refine key _ (by simp [serviceLoop, hm, hl, createIngressForService, hr]; rfl)
            (fun n => ?_)
          by_cases hn : svc.Name = n
          · subst hn
            simp [keptStep, isPublic, hl, Inventory.insert]
          · have hn2 : ¬ n = svc.Name := fun h => hn h.symm
            simp [keptStep, hn, hn2, Inventory.insert]
        · refine key st (by simp [serviceLoop, hm, hl, hv]) (fun n => ?_)
          by_cases hn : svc.Name = n
          · subst hn
            simp [keptStep, isPublic, hm, hl, hv]
          · simp [keptStep, hn]
    | some ing =>
      cases hl : svc.Labels.lookup "public" with
      | none =>
        refine key _ (by simp [serviceLoop, hm, hl]; rfl) (fun n => ?_)
        by_cases hn : svc.Name = n
        · subst hn
          simp [keptStep, isPublic, dropsEntry, hl, Inventory.delete]
        · have hn2 : ¬ n = svc.Name := fun h => hn h.symm
          simp [keptStep, hn, hn2, Inventory.delete]
      | some val =>
        by_cases hv : val = "false"
        · subst hv
          refine key _ (by simp [serviceLoop, hm, hl]; rfl) (fun n => ?_)
          by_cases hn : svc.Name = n
          · subst hn
            simp [keptStep, isPublic, dropsEntry, hl, Inventory.delete]
          · have hn2 : ¬ n = svc.Name := fun h => hn h.symm
            simp [keptStep, hn, hn2, Inventory.delete]
        · refine key st (by simp [serviceLoop, hm, hl, hv]) (fun n => ?_)
          by_cases hn : svc.Name = n
          · subst hn
            simp [keptStep, isPublic, dropsEntry, hm, hl, hv]
          · simp [keptStep, hn]

/-- Counterexample to C8, every create call succeeding.  On the snapshot with the one
service `ns1/api` labelled `public=""` and the ingresses `edge/web-ing` (backend `api`)
and `edge/ghost-ing` (backend `ghost`), the pass returns `nil` with entries for `api`,
which is not labelled `"true"`, and for `ghost`, which is not a listed service.  On the
snapshot with the services `ns1/api` (public) and `ns2/api` (no label) and no ingress,
the pass creates an ingress for `ns1/api` and returns `nil` with no entry for `api`.  On
a snapshot with an ingress whose rule has no HTTP section the pass panics. -/
theorem bootstrap_keeps_unlisted_and_unlabelled :
    (createIngressServiceMap exampleConfig
        (fixedCluster [mkService "ns1" "api" [("public", "")]] [edgeIngress, ghostIngress]
          true true) (startState Inventory.empty)).panics = false ∧
    (createIngressServiceMap exampleConfig
        (fixedCluster [mkService "ns1" "api" [("public", "")]] [edgeIngress, ghostIngress]
          true true) (startState Inventory.empty)).err = none ∧
    (createIngressServiceMap exampleConfig
        (fixedCluster [mkService "ns1" "api" [("public", "")]] [edgeIngress, ghostIngress]
          true true) (startState Inventory.empty)).state.svcIngPair "api" = some edgeIngress ∧
    (createIngressServiceMap exampleConfig
        (fixedCluster [mkService "ns1" "api" [("public", "")]] [edgeIngress, ghostIngress]
          true true) (startState Inventory.empty)).state.svcIngPair "ghost" = some ghostIngress ∧
    (createIngressServiceMap exampleConfig
        (fixedCluster [mkService "ns1" "api" [("public", "true")], mkService "ns2" "api" []] []
          true true) (startState Inventory.empty)).err = none ∧
    (createIngressServiceMap exampleConfig
        (fixedCluster [mkService "ns1" "api" [("public", "true")], mkService "ns2" "api" []] []
          true true) (startState Inventory.empty)).state.calls
      = [Call.listServices, Call.listIngresses, Call.create "ns1" (mkIngress "ns1" "api")] ∧
    (createIngressServiceMap exampleConfig
        (fixedCluster [mkService "ns1" "api" [("public", "true")], mkService "ns2" "api" []] []
          true true) (startState Inventory.empty)).state.svcIngPair "api" = none ∧
    (createIngressServiceMap exampleConfig
        (fixedCluster [mkService "ns1" "api" [("public", "true")]] [bareIngress]
          true true) (startState Inventory.empty)).panics = true := by
  decide

/-- C8 (amended): for every snapshot of services and ingresses in which every ingress
rule has an HTTP section and for which every create call succeeds,
`createIngressServiceMap` started on an empty map returns `nil`, and a name `n` has an
entry in the resulting map exactly when either some listed service named `n` carries
`public="true"` and no service named `n` later in the list lacks the `public` key or
carries `public="false"`, or `n` is the backend of a path of a listed ingress and no
listed service named `n` lacks the `public` key or carries `public="false"`. -/
theorem bootstrap_key_set {σ : Type} (cfg : Config) (cs : Clientset σ) (st : State σ)
    (services : List Service) (ingresses : List Ingress)
    (hempty : st.svcIngPair = Inventory.empty)
    (hsvc : (cs.ServicesList st.world).1 = Except.ok services)
    (hing : (cs.IngressesList (cs.ServicesList st.world).2).1 = Except.ok ingresses)
    (hhttp : ∀ ing ∈ ingresses, ∀ r ∈ ing.Spec.Rules, r.HTTP.isSome)
    (hcreate : ∀ ns i w, ∃ r, (cs.IngressesCreate ns i w).1 = Except.ok r) :
    ∃ st1, createIngressServiceMap cfg cs st = BootResult.returned st1 none ∧
      ∀ n, (st1.svcIngPair n).isSome ↔
        ((∃ pre s post, services = pre ++ s :: post ∧ s.Name = n ∧ isPublic s ∧
            ∀ t ∈ post, t.Name = n → ¬ dropsEntry t) ∨
         (n ∈ backendNames ingresses ∧ ∀ t ∈ services, t.Name = n → ¬ dropsEntry t)) := by
  obtain ⟨m, hm, hscan⟩ := scanIngresses_isSome ingresses st.svcIngPair hhttp
  obtain ⟨st1, hloop, hkeys⟩ := serviceLoop_keys cfg cs hcreate services
    { svcIngPair := m, world := (cs.IngressesList (cs.ServicesList st.world).2).2,
      calls := st.calls ++ [Call.listServices] ++ [Call.listIngresses] }
  refine ⟨st1, ?_, fun n => ?_⟩
  · simp only [createIngressServiceMap, hsvc, hing, hm, hloop]
  · rw [hkeys n]
    have hn : (m n).isSome ↔ n ∈ backendNames ingresses := by
      rw [hscan n, hempty]
      simp [Inventory.empty]
    simp only [keptName, hn]

/-- Witness for C8 (amended): services `ns1/api` (public) and `ns1/web` (`public=""`),
ingress `edge/web-ing`, every create call succeeding. -/
theorem bootstrap_key_set_witness :
    (startState Inventory.empty).svcIngPair = Inventory.empty ∧
    (∀ ing ∈ [edgeIngress], ∀ r ∈ ing.Spec.Rules, r.HTTP.isSome) ∧
    (∀ ns i w, ∃ r,
      ((fixedCluster [mkService "ns1" "api" [("public", "true")],
          mkService "ns1" "web" [("public", "")]] [edgeIngress] true true).IngressesCreate
        ns i w).1 = Except.ok r) ∧
    ∃ st1, createIngressServiceMap exampleConfig
        (fixedCluster [mkService "ns1" "api" [("public", "true")],
          mkService "ns1" "web" [("public", "")]] [edgeIngress] true true)
        (startState Inventory.empty) = BootResult.returned st1 none ∧
      ∀ n, (st1.svcIngPair n).isSome ↔
        ((∃ pre s post,
            [mkService "ns1" "api" [("public", "true")], mkService "ns1" "web" [("public", "")]]
              = pre ++ s :: post ∧ s.Name = n ∧ isPublic s ∧
            ∀ t ∈ post, t.Name = n → ¬ dropsEntry t) ∨
         (n ∈ backendNames [edgeIngress] ∧
           ∀ t ∈ [mkService "ns1" "api" [("public", "true")],
                  mkService "ns1" "web" [("public", "")]], t.Name = n → ¬ dropsEntry t)) :=
  ⟨rfl, by decide, fun _ i _ => ⟨i, rfl⟩,
   bootstrap_key_set exampleConfig
     (fixedCluster [mkService "ns1" "api" [("public", "true")],
        mkService "ns1" "web" [("public", "")]] [edgeIngress] true true)
     (startState Inventory.empty)
     [mkService "ns1" "api" [("public", "true")], mkService "ns1" "web" [("public", "")]]
     [edgeIngress] rfl rfl rfl (by decide) (fun _ i _ => ⟨i, rfl⟩)⟩

/-! ### Which requests the start-up pass sends -/

/-- Every request in the log after the loop over the listed services was in the log
before, or is the create request built from a listed service labelled `public="true"`. -/
theorem serviceLoop_calls {σ : Type} (cfg : Config) (cs : Clientset σ)
    (services : List Service) (st : State σ) (c : Call)
    (hc : c ∈ (serviceLoop cfg cs services st).1.calls) :
    c ∈ st.calls ∨ ∃ t ∈ services, isPublic t ∧
      c = Call.create t.Namespace (createIngress cfg t (createIngressBackend t)) := by
  induction services generalizing st with
  | nil => exact Or.inl (by simpa [serviceLoop] using hc)
  | cons svc rest ih =>
    have lift : ∀ st0 : State σ, st0.calls = st.calls →
        c ∈ (serviceLoop cfg cs rest st0).1.calls →
        c ∈ st.calls ∨ ∃ t ∈ svc :: rest, isPublic t ∧
          c = Call.create t.Namespace (createIngress cfg t (createIngressBackend t)) := by
      intro st0 h0 h
      rcases ih st0 h with h1 | ⟨t, ht, hp, he⟩
      · exact Or.inl (h0 ▸ h1)
      · exact Or.inr ⟨t, List.mem_cons_of_mem svc ht, hp, he⟩
    cases hm : st.svcIngPair svc.Name with
    | none =>
      cases hl : svc.Labels.lookup "public" with
      | none =>
        simp only [serviceLoop, hm, hl] at hc
        exact lift st rfl hc
      | some val =>
        by_cases hv : val = "true"
        · subst hv
          cases hr : (cs.IngressesCreate svc.Namespace
              (createIngress cfg svc (createIngressBackend svc)) st.world).1 with
          | error e =>
            simp only [serviceLoop, hm, hl, createIngressForService, hr, if_true,
              List.mem_append, List.mem_singleton] at hc
            rcases hc with h | h
            · exact Or.inl h
            · exact Or.inr ⟨svc, List.mem_cons_self svc rest, hl, h⟩
          | ok r =>
            simp only [serviceLoop, hm, hl, createIngressForService, hr, if_true] at hc
            rcases ih _ hc with h1 | ⟨t, ht, hp, he⟩
            · simp only [List.mem_append, List.mem_singleton] at h1
              rcases h1 with h | h
              · exact Or.inl h
              · exact Or.inr ⟨svc, List.mem_cons_self svc rest, hl, h⟩
            · exact Or.inr ⟨t, List.mem_cons_of_mem svc ht, hp, he⟩
        · simp only [serviceLoop, hm, hl, hv, if_false] at hc
          exact lift st rfl hc
    | some ing =>
      cases hl : svc.Labels.lookup "public" with
      | none =>
        simp only [serviceLoop, hm, hl] at hc
        exact lift { st with svcIngPair := st.svcIngPair.delete svc.Name } rfl hc
      | some val =>
        by_cases hv : val = "false"
        · subst hv
          simp only [serviceLoop, hm, hl, if_true] at hc
          exact lift { st with svcIngPair := st.svcIngPair.delete svc.Name } rfl hc
        · simp only [serviceLoop, hm, hl, hv, if_false] at hc
          exact lift st rfl hc

/-- Every request in the log after `createIngressServiceMap` was in the log before, or is
one of the two list requests, or is the create request built from a service of the
returned service list that is labelled `public="true"`. -/
theorem createIngressServiceMap_calls {σ : Type} (cfg : Config) (cs : Clientset σ)
    (st : State σ) (c : Call) (hc : c ∈ (createIngressServiceMap cfg cs st).state.calls) :
    c ∈ st.calls ∨ c = Call.listServices ∨ c = Call.listIngresses ∨
      ∃ services t, (cs.ServicesList st.world).1 = Except.ok services ∧ t ∈ services ∧
        isPublic t ∧
        c = Call.create t.Namespace (createIngress cfg t (createIngressBackend t)) := by
  unfold createIngressServiceMap at hc
  cases h1 : (cs.ServicesList st.world).1 with
  | error e =>
    simp only [h1, BootResult.state, List.mem_append, List.mem_singleton] at hc
    rcases hc with h | h
    · exact Or.inl h
    · exact Or.inr (Or.inl h)
  | ok services =>
    cases h2 : (cs.IngressesList (cs.ServicesList st.world).2).1 with
    | error e =>
      simp only [h1, h2, BootResult.state, List.mem_append, List.mem_singleton] at hc
      rcases hc with (h | h) | h
      · exact Or.inl h
      · exact Or.inr (Or.inl h)
      · exact Or.inr (Or.inr (Or.inl h))
    | ok ingresses =>
      cases h3 : scanIngresses ingresses st.svcIngPair with
      | none =>
        simp only [h1, h2, h3, BootResult.state, List.mem_append, List.mem_singleton] at hc
        rcases hc with (h | h) | h
        · exact Or.inl h
        · exact Or.inr (Or.inl h)
        · exact Or.inr (Or.inr (Or.inl h))
      | some m =>
        simp only [h1, h2, h3, BootResult.state] at hc
        rcases serviceLoop_calls cfg cs services _ c hc with h | ⟨t, ht, hp, he⟩
        · simp only [List.mem_append, List.mem_singleton] at h
          rcases h with (h | h) | h
          · exact Or.inl h
          · exact Or.inr (Or.inl h)
          · exact Or.inr (Or.inr (Or.inl h))
        · exact Or.inr (Or.inr (Or.inr ⟨services, t, rfl, ht, hp, he⟩))

/-- C11: for every service whose labels do not map `public` to exactly `"true"`, an Add
event changes nothing and issues no call, an Update event adds no create request to the
log and, when the map has no entry for the service, changes nothing, and the round of the
start-up loop for the service sends no request (only the map may change).  Over the
whole start-up pass, every create request added to the log is the one built from a listed
service whose labels map `public` to `"true"`. -/
theorem no_create_unless_public {σ : Type} (cfg : Config) (cs : Clientset σ) (st : State σ)
    (oldSvc s : Service) (rest : List Service) (hnp : ¬ isPublic s) :
    AddFunc cfg cs st s = st ∧
    (∀ ns i, Call.create ns i ∈ (UpdateFunc cfg cs st oldSvc s).calls →
      Call.create ns i ∈ st.calls) ∧
    (st.svcIngPair s.Name = none → UpdateFunc cfg cs st oldSvc s = st) ∧
    (∃ m, serviceLoop cfg cs (s :: rest) st
        = serviceLoop cfg cs rest { st with svcIngPair := m }) ∧
    (∀ ns i, Call.create ns i ∈ (createIngressServiceMap cfg cs st).state.calls →
      Call.create ns i ∈ st.calls ∨
        ∃ services t, (cs.ServicesList st.world).1 = Except.ok services ∧ t ∈ services ∧
          isPublic t ∧ ns = t.Namespace ∧
          i = createIngress cfg t (createIngressBackend t)) := by
  unfold isPublic at hnp
  refine ⟨?_, ?_, ?_, ?_, ?_⟩
  · cases hm : st.svcIngPair s.Name with
    | some ing => simp [AddFunc, hm]
    | none =>
      cases hl : s.Labels.lookup "public" with
      | none => simp [AddFunc, hm, hl]
      | some val =>
        have hv : ¬ val = "true" := fun h => hnp (by rw [hl, h])
        simp [AddFunc, hm, hl, hv]
  · intro ns i hmem
    cases hm : st.svcIngPair s.Name with
    | some ing =>
      cases hl : s.Labels.lookup "public" with
      | none => simpa [UpdateFunc, hm, hl, sendDelete] using hmem
      | some val =>
        by_cases hv : val = "false"
        · simpa [UpdateFunc, hm, hl, hv, sendDelete] using hmem
        · simpa [UpdateFunc, hm, hl, hv] using hmem
    | none =>
      cases hl : s.Labels.lookup "public" with
      | none => simpa [UpdateFunc, hm, hl] using hmem
      | some val =>
        have hv : ¬ val = "true" := fun h => hnp (by rw [hl, h])
        simpa [UpdateFunc, hm, hl, hv] using hmem
  · intro hm
    cases hl : s.Labels.lookup "public" with
    | none => simp [UpdateFunc, hm, hl]
    | some val =>
      have hv : ¬ val = "true" := fun h => hnp (by rw [hl, h])
      simp [UpdateFunc, hm, hl, hv]
  · cases hm : st.svcIngPair s.Name with
    | some ing =>
      cases hl : s.Labels.lookup "public" with
      | none => exact ⟨st.svcIngPair.delete s.Name, by simp [serviceLoop, hm, hl]⟩
      | some val =>
        by_cases hv : val = "false"
        · exact ⟨st.svcIngPair.delete s.Name, by simp [serviceLoop, hm, hl, hv]⟩
        · exact ⟨st.svcIngPair, by simp [serviceLoop, hm, hl, hv]⟩
    | none =>
      cases hl : s.Labels.lookup "public" with
      | none => exact ⟨st.svcIngPair, by simp [serviceLoop, hm, hl]⟩
      | some val =>
        have hv : ¬ val = "true" := fun h => hnp (by rw [hl, h])
        exact ⟨st.svcIngPair, by simp [serviceLoop, hm, hl, hv]⟩
  · intro ns i hmem
    rcases createIngressServiceMap_calls cfg cs st _ hmem with
      h | h | h | ⟨services, t, hs, ht, hp, he⟩
    · exact Or.inl h
    · cases h
    · cases h
    · injection he with h1 h2
      exact Or.inr ⟨services, t, hs, ht, hp, h1, h2⟩

/-- Witness for C11: `ns1/api` labelled `public="True"`, untracked. -/
theorem no_create_unless_public_witness :
    ¬ isPublic (mkService "ns1" "api" [("public", "True")]) ∧
    AddFunc exampleConfig okCluster (startState Inventory.empty)
        (mkService "ns1" "api" [("public", "True")]) = startState Inventory.empty ∧
    UpdateFunc exampleConfig okCluster (startState Inventory.empty) (mkService "ns1" "api" [])
        (mkService "ns1" "api" [("public", "True")]) = startState Inventory.empty :=
  ⟨by decide,
   (no_create_unless_public exampleConfig okCluster (startState Inventory.empty)
      (mkService "ns1" "api" []) (mkService "ns1" "api" [("public", "True")]) []
      (by decide)).1,
   (no_create_unless_public exampleConfig okCluster (startState Inventory.empty)
      (mkService "ns1" "api" []) (mkService "ns1" "api" [("public", "True")]) []
      (by decide)).2.2.1 rfl⟩

/-- When both list calls succeed, every ingress rule has an HTTP section and every create
call succeeds, `createIngressServiceMap` returns `nil`, and a name has an entry in the
resulting map exactly as `keptName` tells from the labels, starting from the names that
had an entry before the pass or are backend names of the listed ingresses. -/
theorem createIngressServiceMap_returns {σ : Type} (cfg : Config) (cs : Clientset σ)
    (st : State σ) (services : List Service) (ingresses : List Ingress)
    (hsvc : (cs.ServicesList st.world).1 = Except.ok services)
    (hing : (cs.IngressesList (cs.ServicesList st.world).2).1 = Except.ok ingresses)
    (hhttp : ∀ ing ∈ ingresses, ∀ r ∈ ing.Spec.Rules, r.HTTP.isSome)
    (hcreate : ∀ ns i w, ∃ r, (cs.IngressesCreate ns i w).1 = Except.ok r) :
    ∃ st1, createIngressServiceMap cfg cs st = BootResult.returned st1 none ∧
      ∀ n, (st1.svcIngPair n).isSome
        ↔ keptName services n ((st.svcIngPair n).isSome ∨ n ∈ backendNames ingresses) := by
  obtain ⟨m, hm, hscan⟩ := scanIngresses_isSome ingresses st.svcIngPair hhttp
  obtain ⟨st1, hloop, hkeys⟩ := serviceLoop_keys cfg cs hcreate services
    { svcIngPair := m, world := (cs.IngressesList (cs.ServicesList st.world).2).2,
      calls := st.calls ++ [Call.listServices] ++ [Call.listIngresses] }
  refine ⟨st1, ?_, fun n => ?_⟩
  · simp only [createIngressServiceMap, hsvc, hing, hm, hloop]
  · rw [hkeys n]
    exact keptName_congr services n _ _ (hscan n)

/-- A name loses its entry in the round of a service that drops it, and does not get it
back when no later service of that name is public. -/
theorem not_keptName_of_drop (pre : List Service) (s : Service) (post : List Service)
    (before : Prop) (hdrop : dropsEntry s)
    (hlater : ∀ t ∈ post, t.Name = s.Name → ¬ isPublic t) :
    ¬ keptName (pre ++ s :: post) s.Name before := by
  induction pre generalizing before with
  | nil =>
    rw [List.nil_append, keptName_cons]
    rintro (⟨pre1, t, post1, hsplit, hname, hpub, _⟩ | ⟨hstep, _⟩)
    · exact hlater t (by rw [hsplit]; simp) hname hpub
    · rcases hstep with ⟨_, hpub | ⟨_, hnd⟩⟩ | ⟨hne, _⟩
      · unfold isPublic at hpub
        unfold dropsEntry at hdrop
        rcases hdrop with h | h <;> rw [h] at hpub <;> simp at hpub
      · exact hnd hdrop
      · exact hne rfl
  | cons p pre ih =>
    rw [List.cons_append, keptName_cons]
    exact ih _

/-! ### Failures during the start-up pass -/

/-- When the loop over a first part of the service list ends without an error, the loop over
the whole list goes on with the rest from the state reached. -/
theorem serviceLoop_append {σ : Type} (cfg : Config) (cs : Clientset σ)
    (pre rest : List Service) (st st3 : State σ)
    (hpre : serviceLoop cfg cs pre st = (st3, none)) :
    serviceLoop cfg cs (pre ++ rest) st = serviceLoop cfg cs rest st3 := by
  induction pre generalizing st with
  | nil =>
    simp only [serviceLoop, Prod.mk.injEq, and_true] at hpre
    rw [hpre, List.nil_append]
  | cons svc pre ih =>
    rw [List.cons_append]
    cases hm : st.svcIngPair svc.Name with
    | none =>
      cases hl : svc.Labels.lookup "public" with
      | none =>
        simp only [serviceLoop, hm, hl] at hpre ⊢
        exact ih _ hpre
      | some val =>
        by_cases hv : val = "true"
        · subst hv
          cases hr : (cs.IngressesCreate svc.Namespace
              (createIngress cfg svc (createIngressBackend svc)) st.world).1 with
          | error e =>
            simp [serviceLoop, hm, hl, createIngressForService, hr] at hpre
          | ok r =>
            simp only [serviceLoop, hm, hl, createIngressForService, hr, if_true] at hpre ⊢
            exact ih _ hpre
        · simp only [serviceLoop, hm, hl, hv, if_false] at hpre ⊢
          exact ih _ hpre
    | some ing =>
      cases hl : svc.Labels.lookup "public" with
      | none =>
        simp only [serviceLoop, hm, hl] at hpre ⊢
        exact ih _ hpre
      | some val =>
        by_cases hv : val = "false"
        · subst hv
          simp only [serviceLoop, hm, hl, if_true] at hpre ⊢
          exact ih _ hpre
        · simp only [serviceLoop, hm, hl, hv, if_false] at hpre ⊢
          exact ih _ hpre

/-- C13: if the first list call fails, `createIngressServiceMap` returns that error with
only that request sent; if the second list call fails, it returns that error with only
the two list requests sent; and if the pass reaches a listed service `s` without an
earlier error (state `st3` after the services before it), `s` is untracked and public,
and the create call for `s` fails, the pass returns exactly that error and the log ends
with that create request, so nothing is sent for the services listed after `s`. -/
theorem bootstrap_fail_fast {σ : Type} (cfg : Config) (cs : Clientset σ) (st : State σ) :
    (∀ e, (cs.ServicesList st.world).1 = Except.error e →
      createIngressServiceMap cfg cs st
        = BootResult.returned
            { svcIngPair := st.svcIngPair, world := (cs.ServicesList st.world).2,
              calls := st.calls ++ [Call.listServices] } (some e)) ∧
    (∀ services e, (cs.ServicesList st.world).1 = Except.ok services →
      (cs.IngressesList (cs.ServicesList st.world).2).1 = Except.error e →
      createIngressServiceMap cfg cs st
        = BootResult.returned
            { svcIngPair := st.svcIngPair,
              world := (cs.IngressesList (cs.ServicesList st.world).2).2,
              calls := st.calls ++ [Call.listServices] ++ [Call.listIngresses] } (some e)) ∧
    (∀ ingresses m pre s post st3 e,
      (cs.ServicesList st.world).1 = Except.ok (pre ++ s :: post) →
      (cs.IngressesList (cs.ServicesList st.world).2).1 = Except.ok ingresses →
      scanIngresses ingresses st.svcIngPair = some m →
      serviceLoop cfg cs pre
          { svcIngPair := m, world := (cs.IngressesList (cs.ServicesList st.world).2).2,
            calls := st.calls ++ [Call.listServices] ++ [Call.listIngresses] } = (st3, none) →
      st3.svcIngPair s.Name = none →
      isPublic s →
      (cs.IngressesCreate s.Namespace (createIngress cfg s (createIngressBackend s))
          st3.world).1 = Except.error e →
      createIngressServiceMap cfg cs st
        = BootResult.returned
            { svcIngPair := st3.svcIngPair,
              world := (cs.IngressesCreate s.Namespace
                (createIngress cfg s (createIngressBackend s)) st3.world).2,
              calls := st3.calls
                ++ [Call.create s.Namespace (createIngress cfg s (createIngressBackend s))] }
            (some e)) := by
  refine ⟨?_, ?_, ?_⟩
  · intro e h1
    simp only [createIngressServiceMap, h1]
  · intro services e h1 h2
    simp only [createIngressServiceMap, h1, h2]
  · intro ingresses m pre s post st3 e h1 h2 h3 hpre hm hpub hfail
    unfold isPublic at hpub
    simp only [createIngressServiceMap, h1, h2, h3]
    rw [serviceLoop_append cfg cs pre (s :: post) _ st3 hpre]
    simp only [serviceLoop, hm, hpub, createIngressForService, hfail, if_true]

/-- Witness for C13: three public services on a cluster whose second create request
fails; and the two clusters whose list requests fail. -/
theorem bootstrap_fail_fast_witness :
    createIngressServiceMap exampleConfig noServicesCluster (startState Inventory.empty)
      = BootResult.returned
          { svcIngPair := Inventory.empty, world := (), calls := [Call.listServices] }
          (some "list services failed") ∧
    createIngressServiceMap exampleConfig
        (noIngressesCluster [mkService "ns1" "api" [("public", "true")]])
        (startState Inventory.empty)
      = BootResult.returned
          { svcIngPair := Inventory.empty, world := (),
            calls := [Call.listServices, Call.listIngresses] }
          (some "list ingresses failed") ∧
    createIngressServiceMap exampleConfig
        (countingCluster [mkService "ns1" "api" [("public", "true")],
          mkService "ns1" "web" [("public", "true")],
          mkService "ns1" "db" [("public", "true")]] [] 1)
        { svcIngPair := Inventory.empty, world := 0, calls := [] }
      = BootResult.returned
          { svcIngPair := Inventory.empty.insert "api" (mkIngress "ns1" "api"),
            world := 2,
            calls := [Call.listServices, Call.listIngresses,
              Call.create "ns1" (mkIngress "ns1" "api"),
              Call.create "ns1" (mkIngress "ns1" "web")] }
          (some "create failed") :=
  ⟨(bootstrap_fail_fast exampleConfig noServicesCluster (startState Inventory.empty)).1
      "list services failed" rfl,
   (bootstrap_fail_fast exampleConfig
      (noIngressesCluster [mkService "ns1" "api" [("public", "true")]])
      (startState Inventory.empty)).2.1
      [mkService "ns1" "api" [("public", "true")]] "list ingresses failed" rfl rfl,
   (bootstrap_fail_fast exampleConfig
      (countingCluster [mkService "ns1" "api" [("public", "true")],
        mkService "ns1" "web" [("public", "true")],
        mkService "ns1" "db" [("public", "true")]] [] 1)
      { svcIngPair := Inventory.empty, world := 0, calls := [] }).2.2
      [] Inventory.empty [mkService "ns1" "api" [("public", "true")]]
      (mkService "ns1" "web" [("public", "true")]) [mkService "ns1" "db" [("public", "true")]]
      { svcIngPair := Inventory.empty.insert "api" (mkIngress "ns1" "api"), world := 1,
        calls := [Call.listServices, Call.listIngresses,
          Call.create "ns1" (mkIngress "ns1" "api")] }
      "create failed" rfl rfl rfl rfl (by decide) (by decide) rfl⟩

/-! ### The ingress scan in detail -/

/-- The innermost loop keeps every entry it finds and records `ing` under exactly the
backend names of the paths that had no entry. -/
theorem scanPaths_apply (ing : Ingress) (ps : List HTTPIngressPath) (m : Inventory)
    (n : String) :
    scanPaths ing ps m n
      = (m n).or (if n ∈ ps.map (fun p => p.Backend.ServiceName) then some ing else none) := by
  induction ps generalizing m with
  | nil => cases h : m n <;> simp [scanPaths, h, Option.or]
  | cons p ps ih =>
    cases hm : m p.Backend.ServiceName with
    | some x =>
      simp only [scanPaths, hm, ih]
      cases hn : m n with
      | some y => simp [Option.or]
      | none =>
        have hne : ¬ n = p.Backend.ServiceName := by
          intro h
          rw [h, hm] at hn
          cases hn
        simp [Option.or, hne]
    | none =>
      simp only [scanPaths, hm, ih, Inventory.insert]
      by_cases hne : n = p.Backend.ServiceName
      · subst hne
        simp [Option.or, hm]
      · cases hn : m n <;> simp [Option.or, hne]

/-- The loop over the rules of an ingress whose rules all have an HTTP section keeps
every entry it finds and records `ing` under exactly the backend names that had none. -/
theorem scanRules_apply (ing : Ingress) (rules : List IngressRule) (m : Inventory)
    (hhttp : ∀ r ∈ rules, r.HTTP.isSome) :
    ∃ m1, scanRules ing rules m = some m1 ∧
      ∀ n, m1 n
        = (m n).or (if n ∈ rules.flatMap ruleBackendNames then some ing else none) := by
  induction rules generalizing m with
  | nil => exact ⟨m, rfl, fun n => by simp⟩
  | cons r rs ih =>
    have hr : r.HTTP.isSome := hhttp r (List.mem_cons_self r rs)
    obtain ⟨http, hhttpr⟩ := Option.isSome_iff_exists.mp hr
    obtain ⟨m1, hm1, hval⟩ :=
      ih (scanPaths ing http.Paths m) (fun t ht => hhttp t (List.mem_cons_of_mem r ht))
    refine ⟨m1, by simp only [scanRules, hhttpr, hm1], fun n => ?_⟩
    rw [hval n, scanPaths_apply]
    simp only [List.flatMap_cons, List.mem_append, ruleBackendNames, hhttpr]
    cases hn : m n with
    | some y => simp [Option.or]
    | none =>
      by_cases h1 : n ∈ http.Paths.map (fun p => p.Backend.ServiceName)
      · simp [Option.or, h1]
      · simp [Option.or, h1]

/-- The loop over the listed ingresses, when every rule has an HTTP section, keeps every
entry it finds and records under every other name the first listed ingress that has it as
a backend name. -/
theorem scanIngresses_apply (ingresses : List Ingress) (m : Inventory)
    (hhttp : ∀ ing ∈ ingresses, ∀ r ∈ ing.Spec.Rules, r.HTTP.isSome) :
    ∃ m1, scanIngresses ingresses m = some m1 ∧
      ∀ n, m1 n = (m n).or (firstReferencing ingresses n) := by
  induction ingresses generalizing m with
  | nil => exact ⟨m, rfl, fun n => by simp [firstReferencing]⟩
  | cons ing rest ih =>
    obtain ⟨m0, hm0, hval0⟩ :=
      scanRules_apply ing ing.Spec.Rules m (hhttp ing (List.mem_cons_self ing rest))
    obtain ⟨m1, hm1, hval1⟩ := ih m0 (fun i hi => hhttp i (List.mem_cons_of_mem ing hi))
    refine ⟨m1, by simp only [scanIngresses, hm0, hm1], fun n => ?_⟩
    rw [hval1 n, hval0 n]
    cases hn : m n with
    | some y => simp [Option.or]
    | none =>
      by_cases h1 : n ∈ ing.Spec.Rules.flatMap ruleBackendNames
      · have hd : (fun i => decide (n ∈ ingressBackendNames i)) ing = true := by
          simp only [ingressBackendNames, decide_eq_true_eq]
          exact h1
        simp only [h1, if_true, Option.or, firstReferencing]
        exact (@List.find?_cons_of_pos Ingress (fun i => decide (n ∈ ingressBackendNames i))
          ing rest hd).symm
      · have hd : ¬ (fun i => decide (n ∈ ingressBackendNames i)) ing = true := by
          simp only [ingressBackendNames, decide_eq_true_eq]
          exact h1
        simp only [h1, if_false, Option.or, firstReferencing]
        exact (@List.find?_cons_of_neg Ingress (fun i => decide (n ∈ ingressBackendNames i))
          ing rest hd).symm

/-- C14: the ingress scan of `createIngressServiceMap`, started on an empty map over a
list of ingresses whose rules all have an HTTP section, ends with the map that sends
every service name to the first ingress, in list order, that has it as the backend of one
of its paths (so a later ingress naming the same service never replaces it; the entry
for `n` is `firstReferencing ingresses n`), and has no entry for a name that is the
backend of no path of a listed ingress. -/
theorem scan_first_wins (ingresses : List Ingress)
    (hhttp : ∀ ing ∈ ingresses, ∀ r ∈ ing.Spec.Rules, r.HTTP.isSome) :
    ∃ m, scanIngresses ingresses Inventory.empty = some m ∧
      (∀ n, m n = firstReferencing ingresses n) ∧
      (∀ n pre ing post, ingresses = pre ++ ing :: post →
        n ∈ ingressBackendNames ing → (∀ i ∈ pre, n ∉ ingressBackendNames i) →
        m n = some ing) ∧
      (∀ n, n ∉ backendNames ingresses → m n = none) := by
  obtain ⟨m, hm, hval⟩ := scanIngresses_apply ingresses Inventory.empty hhttp
  have hfirst : ∀ n, m n = firstReferencing ingresses n := by
    intro n
    rw [hval n]
    simp [Inventory.empty]
  refine ⟨m, hm, hfirst, ?_, ?_⟩
  · intro n pre ing post hsplit href hpre
    rw [hfirst n, hsplit, firstReferencing, List.find?_append]
    have h1 : List.find? (fun i => decide (n ∈ ingressBackendNames i)) pre = none := by
      rw [List.find?_eq_none]
      intro i hi
      simpa using hpre i hi
    rw [h1]
    simp [href]
  · intro n hn
    rw [hfirst n, firstReferencing, List.find?_eq_none]
    intro i hi
    simp only [decide_eq_true_eq]
    intro href
    exact hn (by
      unfold backendNames
      exact List.mem_flatMap.mpr ⟨i, hi, href⟩)

/-- Witness for C14: `edge/web-ing` (backend `api`) listed before `edge/second-ing`
(backends `api` and `web`). -/
theorem scan_first_wins_witness :
    (∀ ing ∈ [edgeIngress, secondIngress], ∀ r ∈ ing.Spec.Rules, r.HTTP.isSome) ∧
    firstReferencing [edgeIngress, secondIngress] "api" = some edgeIngress ∧
    firstReferencing [edgeIngress, secondIngress] "web" = some secondIngress ∧
    firstReferencing [edgeIngress, secondIngress] "db" = none ∧
    ∃ m, scanIngresses [edgeIngress, secondIngress] Inventory.empty = some m ∧
      (∀ n, m n = firstReferencing [edgeIngress, secondIngress] n) ∧
      (∀ n pre ing post, [edgeIngress, secondIngress] = pre ++ ing :: post →
        n ∈ ingressBackendNames ing → (∀ i ∈ pre, n ∉ ingressBackendNames i) →
        m n = some ing) ∧
      (∀ n, n ∉ backendNames [edgeIngress, secondIngress] → m n = none) :=
  ⟨by decide, by decide, by decide, by decide,
   scan_first_wins [edgeIngress, secondIngress] (by decide)⟩

/-! ### Services without ports, dropped labels -/

/-- C15: for every service with no exposed port that is labelled `public="true"` and has
no entry in the map, the backend built is the empty one (empty service name, integer
port zero), an Add event appends exactly one request to the log, the create request in
the service's namespace for the ingress with the usual name, namespace, TLS block and
host whose single path `/` has that empty backend, and when the create call succeeds the
returned ingress is recorded under the service's name.  The builder functions are total:
they return an object, never an error. -/
theorem add_zero_ports {σ : Type} (cfg : Config) (cs : Clientset σ) (st : State σ)
    (s : Service) (hports : s.Spec.Ports = []) (hpub : isPublic s)
    (huntracked : st.svcIngPair s.Name = none) :
    createIngressBackend s = emptyBackend ∧
    emptyBackend.ServiceName = "" ∧ emptyBackend.ServicePort.IntVal = 0 ∧
    (AddFunc cfg cs st s).calls
      = st.calls ++ [Call.create s.Namespace
          { Name := s.Name, Namespace := s.Namespace,
            Spec :=
              { TLS := [{ Hosts := [s.Name ++ "." ++ cfg.wildcardRecord],
                          SecretName := cfg.secret }],
                Rules := [{ Host := s.Name ++ "." ++ cfg.wildcardRecord,
                            HTTP := some { Paths := [{ Path := "/",
                                                       Backend := emptyBackend }] } }] } }] ∧
    (∀ newIng,
      (cs.IngressesCreate s.Namespace (createIngress cfg s (createIngressBackend s)) st.world).1
        = Except.ok newIng →
      (AddFunc cfg cs st s).svcIngPair = st.svcIngPair.insert s.Name newIng) := by
  unfold isPublic at hpub
  have hb : createIngressBackend s = emptyBackend := by
    simp only [createIngressBackend, hports, emptyBackend]
  have hcalls : (AddFunc cfg cs st s).calls
      = st.calls
        ++ [Call.create s.Namespace (createIngress cfg s (createIngressBackend s))] := by
    cases hc : (cs.IngressesCreate s.Namespace
        (createIngress cfg s (createIngressBackend s)) st.world).1 with
    | error e => simp [AddFunc, huntracked, hpub, createIngressForService, hc]
    | ok r => simp [AddFunc, huntracked, hpub, createIngressForService, hc]
  refine ⟨hb, rfl, rfl, ?_, ?_⟩
  · rw [hcalls, hb]
    rfl
  · intro newIng hok
    simp [AddFunc, huntracked, hpub, createIngressForService, hok]

/-- Witness for C15: the public service `ns1/api` without ports, untracked. -/
theorem add_zero_ports_witness :
    isPublic { Name := "api", Namespace := "ns1", Labels := [("public", "true")],
               Spec := { Ports := [] } } ∧
    (AddFunc exampleConfig okCluster (startState Inventory.empty)
        { Name := "api", Namespace := "ns1", Labels := [("public", "true")],
          Spec := { Ports := [] } }).calls
      = [Call.create "ns1"
          { Name := "api", Namespace := "ns1",
            Spec :=
              { TLS := [{ Hosts := ["api.example.com"], SecretName := "tls-default" }],
                Rules := [{ Host := "api.example.com",
                            HTTP := some { Paths := [{ Path := "/",
                                                       Backend := emptyBackend }] } }] } }] :=
  ⟨by decide,
   (add_zero_ports exampleConfig okCluster (startState Inventory.empty)
      { Name := "api", Namespace := "ns1", Labels := [("public", "true")],
        Spec := { Ports := [] } } rfl (by decide) rfl).2.2.2.1⟩

/-- C16: on a map that holds an entry for the service (recorded ingress `ing`), an Update
event whose new object has no `public` key in its labels appends exactly one request to
the log, the delete request for the ingress named `ing.Name` in the service's namespace
(so no create request), and the resulting map has no entry for the service; for the
tracked service `api` in `ns1` the one request is the delete of `api` in `ns1`. -/
theorem update_dropped_label {σ : Type} (cfg : Config) (cs : Clientset σ) (st : State σ)
    (oldSvc s : Service) (ing : Ingress)
    (htracked : st.svcIngPair s.Name = some ing)
    (hlabel : s.Labels.lookup "public" = none) :
    (UpdateFunc cfg cs st oldSvc s).calls = st.calls ++ [Call.delete s.Namespace ing.Name] ∧
    (UpdateFunc cfg cs st oldSvc s).svcIngPair s.Name = none := by
  simp [UpdateFunc, htracked, hlabel, sendDelete, Inventory.delete]

/-- Witness for C16: the tracked service `api` in `ns1` drops the label. -/
theorem update_dropped_label_witness :
    trackedApi.svcIngPair "api" = some (mkIngress "ns1" "api") ∧
    (mkService "ns1" "api" []).Labels.lookup "public" = none ∧
    (UpdateFunc exampleConfig okCluster trackedApi (mkService "ns1" "api" [("public", "true")])
        (mkService "ns1" "api" [])).calls = [Call.delete "ns1" "api"] ∧
    (UpdateFunc exampleConfig okCluster trackedApi (mkService "ns1" "api" [("public", "true")])
        (mkService "ns1" "api" [])).svcIngPair "api" = none :=
  ⟨by decide, by decide,
   update_dropped_label exampleConfig okCluster trackedApi
     (mkService "ns1" "api" [("public", "true")]) (mkService "ns1" "api" [])
     (mkIngress "ns1" "api") (by decide) (by decide)⟩

/-! ### Runtime faults of the ingress scan -/

/-- C17 (the code at the failing input): on a snapshot whose ingress list holds an ingress
with a rule that has no HTTP section, the scan dereferences the nil pointer and
`createIngressServiceMap` panics, before any create request is sent; a rule whose HTTP
section has no paths is scanned without a fault. -/
theorem scan_panics_on_rule_without_http :
    (scanIngresses [bareIngress] Inventory.empty).isNone = true ∧
    (createIngressServiceMap exampleConfig
        (fixedCluster [mkService "ns1" "api" [("public", "true")]] [edgeIngress, bareIngress]
          true true) (startState Inventory.empty)).panics = true ∧
    (createIngressServiceMap exampleConfig
        (fixedCluster [mkService "ns1" "api" [("public", "true")]] [edgeIngress, bareIngress]
          true true) (startState Inventory.empty)).state.calls
      = [Call.listServices, Call.listIngresses] ∧
    (createIngressServiceMap exampleConfig
        (fixedCluster [mkService "ns1" "api" [("public", "true")]] [emptyPathsIngress]
          true true) (startState Inventory.empty)).panics = false := by
  decide

/-! ### Frame and idempotence of the handlers -/

/-- C18: for every map, every Add, Delete or Update event for a service named `n` and
every behaviour of the cluster, the entry stored under any key other than `n` is the
same after the event as before it. -/
theorem handlers_frame {σ : Type} (cfg : Config) (cs : Clientset σ) (st : State σ)
    (oldSvc svc : Service) (k : String) (hk : k ≠ svc.Name) :
    (AddFunc cfg cs st svc).svcIngPair k = st.svcIngPair k ∧
    (DeleteFunc cs st svc).svcIngPair k = st.svcIngPair k ∧
    (UpdateFunc cfg cs st oldSvc svc).svcIngPair k = st.svcIngPair k := by
  have hcreate : ∀ st0 : State σ, st0 = st →
      (match createIngressForService cfg cs st0 svc with
        | (st1, Except.error _) => st1
        | (st1, Except.ok newIng) =>
          { st1 with svcIngPair := st1.svcIngPair.insert svc.Name newIng }).svcIngPair k
        = st.svcIngPair k := by
    intro st0 h0
    subst h0
    cases hc : (cs.IngressesCreate svc.Namespace
        (createIngress cfg svc (createIngressBackend svc)) st0.world).1 with
    | error e => simp [createIngressForService, hc]
    | ok r => simp [createIngressForService, hc, Inventory.insert, hk]
  refine ⟨?_, ?_, ?_⟩
  · cases hm : st.svcIngPair svc.Name with
    | some ing => simp [AddFunc, hm]
    | none =>
      cases hl : svc.Labels.lookup "public" with
      | none => simp [AddFunc, hm, hl]
      | some val =>
        by_cases hv : val = "true"
        · subst hv
          simp only [AddFunc, hm, hl, if_true]
          exact hcreate st rfl
        · simp [AddFunc, hm, hl, hv]
  · cases hm : st.svcIngPair svc.Name with
    | some ing => simp [DeleteFunc, hm, sendDelete, Inventory.delete, hk]
    | none => simp [DeleteFunc, hm]
  · cases hm : st.svcIngPair svc.Name with
    | some ing =>
      cases hl : svc.Labels.lookup "public" with
      | none => simp [UpdateFunc, hm, hl, sendDelete, Inventory.delete, hk]
      | some val =>
        by_cases hv : val = "false"
        · simp [UpdateFunc, hm, hl, hv, sendDelete, Inventory.delete, hk]
        · simp [UpdateFunc, hm, hl, hv]
    | none =>
      cases hl : svc.Labels.lookup "public" with
      | none => simp [UpdateFunc, hm, hl]
      | some val =>
        by_cases hv : val = "true"
        · subst hv
          simp only [UpdateFunc, hm, hl, if_true]
          exact hcreate st rfl
        · simp [UpdateFunc, hm, hl, hv]

/-- Witness for C18: with `api` tracked, events for the public service `web` leave the
entry of `api` alone. -/
theorem handlers_frame_witness :
    "api" ≠ (mkService "ns1" "web" [("public", "true")]).Name ∧
    (AddFunc exampleConfig okCluster trackedApi
        (mkService "ns1" "web" [("public", "true")])).svcIngPair "api"
      = trackedApi.svcIngPair "api" ∧
    (DeleteFunc okCluster trackedApi
        (mkService "ns1" "web" [("public", "true")])).svcIngPair "api"
      = trackedApi.svcIngPair "api" ∧
    (UpdateFunc exampleConfig okCluster trackedApi (mkService "ns1" "web" [])
        (mkService "ns1" "web" [("public", "true")])).svcIngPair "api"
      = trackedApi.svcIngPair "api" :=
  ⟨by decide,
   handlers_frame exampleConfig okCluster trackedApi (mkService "ns1" "web" [])
     (mkService "ns1" "web" [("public", "true")]) "api" (by decide)⟩

/-- C19: when the create calls of the cluster succeed, processing an Update event a
second time right after the first returns the state the first processing returned: the
second processing sends no request (the log is the same) and the map is the same. -/
theorem update_idempotent {σ : Type} (cfg : Config) (cs : Clientset σ) (st : State σ)
    (oldSvc newSvc : Service)
    (hcreate : ∀ ns i w, ∃ r, (cs.IngressesCreate ns i w).1 = Except.ok r) :
    UpdateFunc cfg cs (UpdateFunc cfg cs st oldSvc newSvc) oldSvc newSvc
      = UpdateFunc cfg cs st oldSvc newSvc := by
  cases hm : st.svcIngPair newSvc.Name with
  | some ing =>
    cases hl : newSvc.Labels.lookup "public" with
    | none => simp [UpdateFunc, hm, hl, sendDelete, Inventory.delete]
    | some val =>
      by_cases hv : val = "false"
      · subst hv
        simp [UpdateFunc, hm, hl, sendDelete, Inventory.delete]
      · simp [UpdateFunc, hm, hl, hv]
  | none =>
    cases hl : newSvc.Labels.lookup "public" with
    | none => simp [UpdateFunc, hm, hl]
    | some val =>
      by_cases hv : val = "true"
      · subst hv
        obtain ⟨r, hr⟩ := hcreate newSvc.Namespace
          (createIngress cfg newSvc (createIngressBackend newSvc)) st.world
        simp [UpdateFunc, hm, hl, createIngressForService, hr, Inventory.insert]
      · simp [UpdateFunc, hm, hl, hv]

/-- Witness for C19: the Update event that makes `ns1/api` public, processed twice on a
cluster whose create calls succeed. -/
theorem update_idempotent_witness :
    (∀ ns i w, ∃ r, (okCluster.IngressesCreate ns i w).1 = Except.ok r) ∧
    UpdateFunc exampleConfig okCluster
        (UpdateFunc exampleConfig okCluster (startState Inventory.empty)
          (mkService "ns1" "api" []) (mkService "ns1" "api" [("public", "true")]))
        (mkService "ns1" "api" []) (mkService "ns1" "api" [("public", "true")])
      = UpdateFunc exampleConfig okCluster (startState Inventory.empty)
          (mkService "ns1" "api" []) (mkService "ns1" "api" [("public", "true")]) :=
  ⟨fun _ i _ => ⟨i, rfl⟩,
   update_idempotent exampleConfig okCluster (startState Inventory.empty)
     (mkService "ns1" "api" []) (mkService "ns1" "api" [("public", "true")])
     (fun _ i _ => ⟨i, rfl⟩)⟩

/-! ### Entries of services that are not public, after the start-up pass -/

/-- An entry under a name that no listed service drops is still there, unchanged, after
the loop over the listed services, whatever the cluster answers. -/
theorem serviceLoop_keeps_entry {σ : Type} (cfg : Config) (cs : Clientset σ) (n : String)
    (x : Ingress) (services : List Service) (st : State σ)
    (hx : st.svcIngPair n = some x)
    (hnodrop : ∀ t ∈ services, t.Name = n → ¬ dropsEntry t) :
    (serviceLoop cfg cs services st).1.svcIngPair n = some x := by
  induction services generalizing st with
  | nil => simpa [serviceLoop] using hx
  | cons svc rest ih =>
    have hrest : ∀ t ∈ rest, t.Name = n → ¬ dropsEntry t :=
      fun t ht => hnodrop t (List.mem_cons_of_mem svc ht)
    have hsvc : svc.Name = n → ¬ dropsEntry svc := hnodrop svc (List.mem_cons_self svc rest)
    cases hm : st.svcIngPair svc.Name with
    | none =>
      have hne : ¬ n = svc.Name := by
        intro h
        rw [h, hm] at hx
        cases hx
      cases hl : svc.Labels.lookup "public" with
      | none =>
        simp only [serviceLoop, hm, hl]
        exact ih st hx hrest
      | some val =>
        by_cases hv : val = "true"
        · subst hv
          cases hr : (cs.IngressesCreate svc.Namespace
              (createIngress cfg svc (createIngressBackend svc)) st.world).1 with
          | error e =>
            simp only [serviceLoop, hm, hl, createIngressForService, hr, if_true]
            exact hx
          | ok r =>
            simp only [serviceLoop, hm, hl, createIngressForService, hr, if_true]
            refine ih _ ?_ hrest
            simp only [Inventory.insert, hne, if_false]
            exact hx
        · simp only [serviceLoop, hm, hl, hv, if_false]
          exact ih st hx hrest
    | some ing =>
      cases hl : svc.Labels.lookup "public" with
      | none =>
        have hne : ¬ n = svc.Name := fun h => hsvc h.symm (Or.inl hl)
        simp only [serviceLoop, hm, hl]
        refine ih _ ?_ hrest
        simp only [Inventory.delete, hne, if_false]
        exact hx
      | some val =>
        by_cases hv : val = "false"
        · subst hv
          have hne : ¬ n = svc.Name := fun h => hsvc h.symm (Or.inr hl)
          simp only [serviceLoop, hm, hl, if_true]
          refine ih _ ?_ hrest
          simp only [Inventory.delete, hne, if_false]
          exact hx
        · simp only [serviceLoop, hm, hl, hv, if_false]
          exact ih st hx hrest

/-- A backend name of the listed ingresses has a first ingress that references it. -/
theorem firstReferencing_of_mem (ingresses : List Ingress) (n : String)
    (h : n ∈ backendNames ingresses) : ∃ ing, firstReferencing ingresses n = some ing := by
  apply Option.isSome_iff_exists.mp
  unfold firstReferencing
  rw [List.find?_isSome]
  unfold backendNames at h
  obtain ⟨i, hi, hn⟩ := List.mem_flatMap.mp h
  exact ⟨i, hi, by simpa [ingressBackendNames] using hn⟩

/-- Counterexample to C12.  On the snapshot with the service `ns1/api` labelled
`public="no"` and the ingress `edge/web-ing` (backend `api`) the pass returns `nil` and
the map still has the entry for `api`.  On the snapshot with the services `ns1/api`
(no label) and `ns2/api` (public) and the same ingress, the entry for `api` is dropped in
the round of `ns1/api` and put back in the round of `ns2/api`.  On the snapshot with the
services `ns1/api` (`public="no"`) and `ns2/api` (no label) and the same ingress, the
entry for `api` is dropped in the round of `ns2/api`. -/
theorem bootstrap_keeps_other_label_values :
    (createIngressServiceMap exampleConfig
        (fixedCluster [mkService "ns1" "api" [("public", "no")]] [edgeIngress] true true)
        (startState Inventory.empty)).err = none ∧
    (createIngressServiceMap exampleConfig
        (fixedCluster [mkService "ns1" "api" [("public", "no")]] [edgeIngress] true true)
        (startState Inventory.empty)).panics = false ∧
    (createIngressServiceMap exampleConfig
        (fixedCluster [mkService "ns1" "api" [("public", "no")]] [edgeIngress] true true)
        (startState Inventory.empty)).state.svcIngPair "api" = some edgeIngress ∧
    (createIngressServiceMap exampleConfig
        (fixedCluster [mkService "ns1" "api" [], mkService "ns2" "api" [("public", "true")]]
          [edgeIngress] true true)
        (startState Inventory.empty)).state.svcIngPair "api" = some (mkIngress "ns2" "api") ∧
    (createIngressServiceMap exampleConfig
        (fixedCluster [mkService "ns1" "api" [("public", "no")], mkService "ns2" "api" []]
          [edgeIngress] true true)
        (startState Inventory.empty)).state.svcIngPair "api" = none := by
  decide

/-- C12 (amended): take a snapshot in which every ingress rule has an HTTP section and for
which every create call succeeds, and a listed service `s` that is named by the backend
of a listed ingress.  If the `public` label of `s` is absent or `"false"` and no service
of the same name listed after `s` carries `public="true"`, `createIngressServiceMap`
returns `nil` with a map that has no entry for the name of `s`.  If no listed service of
that name, `s` included, lacks the `public` key or carries `public="false"`, then,
started on an empty map, `createIngressServiceMap` returns `nil` with a map that still
sends the name of `s` to the first listed ingress that references it.  And whatever the
snapshot and the outcomes of the calls, the pass adds no delete request to the log. -/
theorem bootstrap_drops_unlabelled {σ : Type} (cfg : Config) (cs : Clientset σ)
    (st : State σ) (ingresses : List Ingress) (pre : List Service) (s : Service)
    (post : List Service)
    (hsvc : (cs.ServicesList st.world).1 = Except.ok (pre ++ s :: post))
    (hing : (cs.IngressesList (cs.ServicesList st.world).2).1 = Except.ok ingresses)
    (hhttp : ∀ ing ∈ ingresses, ∀ r ∈ ing.Spec.Rules, r.HTTP.isSome)
    (hcreate : ∀ ns i w, ∃ r, (cs.IngressesCreate ns i w).1 = Except.ok r)
    (href : s.Name ∈ backendNames ingresses) :
    (dropsEntry s → (∀ t ∈ post, t.Name = s.Name → ¬ isPublic t) →
      ∃ st1, createIngressServiceMap cfg cs st = BootResult.returned st1 none ∧
        st1.svcIngPair s.Name = none) ∧
    (st.svcIngPair = Inventory.empty →
      (∀ t ∈ pre ++ s :: post, t.Name = s.Name → ¬ dropsEntry t) →
      ∃ st1 ing, createIngressServiceMap cfg cs st = BootResult.returned st1 none ∧
        firstReferencing ingresses s.Name = some ing ∧
        st1.svcIngPair s.Name = some ing) ∧
    (∀ ns name, Call.delete ns name ∈ (createIngressServiceMap cfg cs st).state.calls →
      Call.delete ns name ∈ st.calls) := by
  refine ⟨?_, ?_, ?_⟩
  · intro hdrop hlater
    obtain ⟨st1, hret, hkeys⟩ :=
      createIngressServiceMap_returns cfg cs st (pre ++ s :: post) ingresses hsvc hing hhttp
        hcreate
    refine ⟨st1, hret, ?_⟩
    have hno := not_keptName_of_drop pre s post
      ((st.svcIngPair s.Name).isSome ∨ s.Name ∈ backendNames ingresses) hdrop hlater
    rw [← hkeys s.Name] at hno
    cases h : st1.svcIngPair s.Name with
    | none => rfl
    | some x => rw [h] at hno; exact absurd rfl hno
  · intro hempty hnodrop
    obtain ⟨ing, hfirst⟩ := firstReferencing_of_mem ingresses s.Name href
    obtain ⟨m, hm, hval⟩ := scanIngresses_apply ingresses st.svcIngPair hhttp
    have hx : m s.Name = some ing := by
      rw [hval s.Name, hempty, hfirst]
      rfl
    obtain ⟨st1, hloop, _⟩ := serviceLoop_keys cfg cs hcreate (pre ++ s :: post)
      { svcIngPair := m, world := (cs.IngressesList (cs.ServicesList st.world).2).2,
        calls := st.calls ++ [Call.listServices] ++ [Call.listIngresses] }
    have hkeep := serviceLoop_keeps_entry cfg cs s.Name ing (pre ++ s :: post)
      { svcIngPair := m, world := (cs.IngressesList (cs.ServicesList st.world).2).2,
        calls := st.calls ++ [Call.listServices] ++ [Call.listIngresses] } hx hnodrop
    rw [hloop] at hkeep
    refine ⟨st1, ing, ?_, hfirst, hkeep⟩
    simp only [createIngressServiceMap, hsvc, hing, hm, hloop]
  · intro ns name hmem
    rcases createIngressServiceMap_calls cfg cs st _ hmem with
      h | h | h | ⟨_, _, _, _, _, he⟩
    · exact h
    · cases h
    · cases h
    · cases he

/-- Witness for C12 (amended): ingress `edge/web-ing` with backend `api`; services
`ns1/web` (public) and `ns1/api` (no label) for the first part, services `ns1/web`
(public) and `ns1/api` (`public="no"`) for the second. -/
theorem bootstrap_drops_unlabelled_witness :
    (∀ ing ∈ [edgeIngress], ∀ r ∈ ing.Spec.Rules, r.HTTP.isSome) ∧
    (mkService "ns1" "api" []).Name ∈ backendNames [edgeIngress] ∧
    dropsEntry (mkService "ns1" "api" []) ∧
    (∃ st1, createIngressServiceMap exampleConfig
        (fixedCluster [mkService "ns1" "web" [("public", "true")], mkService "ns1" "api" []]
          [edgeIngress] true true)
        (startState Inventory.empty) = BootResult.returned st1 none ∧
      st1.svcIngPair "api" = none) ∧
    (∀ t ∈ [mkService "ns1" "web" [("public", "true")],
            mkService "ns1" "api" [("public", "no")]],
      t.Name = "api" → ¬ dropsEntry t) ∧
    firstReferencing [edgeIngress] "api" = some edgeIngress ∧
    (∃ st1 ing, createIngressServiceMap exampleConfig
        (fixedCluster [mkService "ns1" "web" [("public", "true")],
          mkService "ns1" "api" [("public", "no")]] [edgeIngress] true true)
        (startState Inventory.empty) = BootResult.returned st1 none ∧
      firstReferencing [edgeIngress] "api" = some ing ∧
      st1.svcIngPair "api" = some ing) :=
  ⟨by decide, by decide, by decide,
   (bootstrap_drops_unlabelled exampleConfig
      (fixedCluster [mkService "ns1" "web" [("public", "true")], mkService "ns1" "api" []]
        [edgeIngress] true true)
      (startState Inventory.empty) [edgeIngress] [mkService "ns1" "web" [("public", "true")]]
      (mkService "ns1" "api" []) [] rfl rfl (by decide) (fun _ i _ => ⟨i, rfl⟩)
      (by decide)).1 (by decide) (by simp),
   by decide, by decide,
   (bootstrap_drops_unlabelled exampleConfig
      (fixedCluster [mkService "ns1" "web" [("public", "true")],
        mkService "ns1" "api" [("public", "no")]] [edgeIngress] true true)
      (startState Inventory.empty) [edgeIngress] [mkService "ns1" "web" [("public", "true")]]
      (mkService "ns1" "api" [("public", "no")]) [] rfl rfl (by decide)
      (fun _ i _ => ⟨i, rfl⟩) (by decide)).2.1 rfl (by decide)⟩

end AutoIngress
